import Mathlib

/-!
# A shallow embedding of the ray tracer in `zadaca_2/pokusaj01.cpp`

The C++ `float` type is read as an ordered field `α`; the two library
functions the program calls on floats (`sqrt` and `powf`) are parameters of
the definitions, so every definition below is an ordinary computable
function.  The theorems instantiate `α` with the real numbers, `sqrt` with
`Real.sqrt` and `powf` with `Real.rpow`.

Out-parameters (`float &t`, `Vec3f &hit`, ...) are passed in and returned
explicitly: a function that in C++ returns `bool` and writes `t` returns a
pair `(bool, t)` here, the second component being the value the variable
holds after the call.
-/

namespace Raytracer

/-! ## geometry.h -/

/-- Modelled from the spec: `geometry.h` is not among the sources; `Vec3f`
is the 3-component float vector "(x, y, z) float triple" with value
semantics. -/
structure Vec3f (α : Type) where
  x : α
  y : α
  z : α
deriving DecidableEq

/-- Modelled from the spec: `geometry.h` is not among the sources; `Vec2f`
is the 2-component float vector, indexed as `v[0]`, `v[1]`. -/
structure Vec2f (α : Type) where
  x : α
  y : α
deriving DecidableEq

section Defs

variable {α : Type} [LinearOrderedField α]

/-- Modelled from the spec: `geometry.h` is not among the sources; vector
addition `a + b`. -/
def Vec3f.add (a b : Vec3f α) : Vec3f α := ⟨a.x + b.x, a.y + b.y, a.z + b.z⟩

/-- Modelled from the spec: `geometry.h` is not among the sources; vector
difference `a - b`. -/
def Vec3f.sub (a b : Vec3f α) : Vec3f α := ⟨a.x - b.x, a.y - b.y, a.z - b.z⟩

/-- Modelled from the spec: `geometry.h` is not among the sources; scalar
scale `v * k`. -/
def Vec3f.scale (v : Vec3f α) (k : α) : Vec3f α := ⟨v.x * k, v.y * k, v.z * k⟩

/-- Modelled from the spec: `geometry.h` is not among the sources; dot
product `a * b`. -/
def Vec3f.dot (a b : Vec3f α) : α := a.x * b.x + a.y * b.y + a.z * b.z

/-- Modelled from the spec: `geometry.h` is not among the sources; the
Euclidean norm `v.norm()`, the square root of `v * v`. -/
def Vec3f.norm (sqrt : α → α) (v : Vec3f α) : α := sqrt (v.x * v.x + v.y * v.y + v.z * v.z)

/-- Modelled from the spec: `geometry.h` is not among the sources;
normalization `v.normalize()`, the vector scaled by the inverse of its
norm. -/
def Vec3f.normalize (sqrt : α → α) (v : Vec3f α) : Vec3f α := v.scale (1 / v.norm sqrt)

/-- Modelled from the spec: `geometry.h` is not among the sources; the
default-constructed `Vec3f()`. -/
def Vec3f.zero : Vec3f α := ⟨0, 0, 0⟩

instance : Add (Vec3f α) := ⟨Vec3f.add⟩
instance : Sub (Vec3f α) := ⟨Vec3f.sub⟩

/-! ## Lights and materials -/

/-- The `Light` struct: a position and an intensity. -/
structure Light (α : Type) where
  position : Vec3f α
  intensity : α

/-- The `Material` struct. -/
structure Material (α : Type) where
  albedo : Vec2f α
  diffuse_color : Vec3f α
  specular_exponent : α

/-- The default constructor `Material()`. -/
def Material.default : Material α := ⟨⟨1, 0⟩, Vec3f.zero, 1⟩

/-! ## Sphere -/

/-- The `Sphere` struct: the inherited material, the centre `c` and the radius `r`. -/
structure Sphere (α : Type) where
  material : Material α
  c : Vec3f α
  r : α

/-- The method `Sphere::ray_intersect(p, d, t)`: the returned boolean and the
value of `t` after the call. -/
def Sphere.ray_intersect (sqrt : α → α) (s : Sphere α) (p d : Vec3f α) (t : α) : Bool × α :=
  let v := s.c - p
  if d.dot v < 0 then
    (false, t)
  else
    let pc := p + d.scale (d.dot v / d.norm sqrt)
    if (s.c - pc).dot (s.c - pc) > s.r * s.r then
      (false, t)
    else
      let dist := sqrt (s.r * s.r - (s.c - pc).dot (s.c - pc))
      if v.dot v > s.r * s.r then
        (true, (pc - p).norm sqrt - dist)
      else
        (true, (pc - p).norm sqrt + dist)

/-- The method `Sphere::normal(p)`. -/
def Sphere.normal (sqrt : α → α) (s : Sphere α) (p : Vec3f α) : Vec3f α :=
  (p - s.c).normalize sqrt

/-! ## Cylinder -/

/-- The `Cylinder` struct: the inherited material, the base centre `centar`,
the radius `r` and the height `h`. -/
structure Cylinder (α : Type) where
  material : Material α
  centar : Vec3f α
  r : α
  h : α

/-- The method `Cylinder::ray_intersect(p, d, t)`: the returned boolean and
the value of `t` after the call.  The accepting branch is `return t;` in a
function returning `bool`, that is, `t != 0`. -/
def Cylinder.ray_intersect (sqrt : α → α) (cy : Cylinder α) (p d : Vec3f α) (t : α) : Bool × α :=
  let v := cy.centar - p
  if d.dot v < 0 then
    (false, t)
  else
    let a := d.x * d.x + d.z * d.z
    let b := 2 * (d.x * (p.x - cy.centar.x) + d.z * (p.z - cy.centar.z))
    let c := (p.x - cy.centar.x) * (p.x - cy.centar.x)
      + (p.z - cy.centar.z) * (p.z - cy.centar.z) - cy.r * cy.r
    let diskriminanta := b * b - 4 * (a * c)
    if diskriminanta < 0 then
      (false, t)
    else
      let t1 := (-b - sqrt diskriminanta) / (2 * a)
      let t2 := (-b + sqrt diskriminanta) / (2 * a)
      let t' := if t1 > t2 then t2 else t1
      let r := p.y + t' * d.y
      if r ≥ cy.centar.y ∧ r ≤ cy.centar.y + cy.h then
        (decide (t' ≠ 0), t')
      else
        (false, t')

/-- The coefficient `a` of the quadratic in `Cylinder::ray_intersect`. -/
def Cylinder.quad_a (d : Vec3f α) : α :=
  d.x * d.x + d.z * d.z

/-- The coefficient `b` of the quadratic in `Cylinder::ray_intersect`. -/
def Cylinder.quad_b (cy : Cylinder α) (p d : Vec3f α) : α :=
  2 * (d.x * (p.x - cy.centar.x) + d.z * (p.z - cy.centar.z))

/-- The coefficient `c` of the quadratic in `Cylinder::ray_intersect`. -/
def Cylinder.quad_c (cy : Cylinder α) (p : Vec3f α) : α :=
  (p.x - cy.centar.x) * (p.x - cy.centar.x)
    + (p.z - cy.centar.z) * (p.z - cy.centar.z) - cy.r * cy.r

/-- The local `diskriminanta` of `Cylinder::ray_intersect`. -/
def Cylinder.disc (cy : Cylinder α) (p d : Vec3f α) : α :=
  cy.quad_b p d * cy.quad_b p d - 4 * (Cylinder.quad_a d * cy.quad_c p)

/-- The value `Cylinder::ray_intersect` assigns to `t` once the discriminant
is known to be non-negative: `t2` if `t1 > t2`, else `t1`. -/
def Cylinder.chosen_t (sqrt : α → α) (cy : Cylinder α)
    (p d : Vec3f α) : α :=
  if (-cy.quad_b p d - sqrt (cy.disc p d)) / (2 * Cylinder.quad_a d)
      > (-cy.quad_b p d + sqrt (cy.disc p d)) / (2 * Cylinder.quad_a d) then
    (-cy.quad_b p d + sqrt (cy.disc p d)) / (2 * Cylinder.quad_a d)
  else
    (-cy.quad_b p d - sqrt (cy.disc p d)) / (2 * Cylinder.quad_a d)

/-- The method `Cylinder::normal(p)`: the normalized offset from the base
centre with its `y` component then set to zero. -/
def Cylinder.normal (sqrt : α → α) (cy : Cylinder α) (p : Vec3f α) : Vec3f α :=
  let n := (p - cy.centar).normalize sqrt
  { n with y := 0 }

/-! ## Objects and the scene resolver -/

/-- The abstract `Object` with its two instantiable subclasses.  (`Cuboid`
overrides neither pure virtual method and so has no instances.) -/
inductive Object (α : Type) where
  | sphere : Sphere α → Object α
  | cylinder : Cylinder α → Object α

/-- The field `Object::material`. -/
def Object.material : Object α → Material α
  | .sphere s => s.material
  | .cylinder c => c.material

/-- The virtual method `Object::ray_intersect`. -/
def Object.ray_intersect (sqrt : α → α) : Object α → Vec3f α → Vec3f α → α → Bool × α
  | .sphere s => s.ray_intersect sqrt
  | .cylinder c => c.ray_intersect sqrt

/-- The virtual method `Object::normal`. -/
def Object.normal (sqrt : α → α) : Object α → Vec3f α → Vec3f α
  | .sphere s => s.normal sqrt
  | .cylinder c => c.normal sqrt

/-- The distance a primitive reports for a ray: the value its
`ray_intersect` leaves in `t` when it returns true, and nothing when it
returns false. -/
def Object.hit_distance (sqrt : α → α) (obj : Object α) (orig dir : Vec3f α) : Option α :=
  if (obj.ray_intersect sqrt orig dir 0).1 = true then
    some (obj.ray_intersect sqrt orig dir 0).2
  else
    none

/-- The value `std::numeric_limits<float>::max()`. -/
def FLT_MAX : α := 340282346638528859811704183484516925440

/-- The local variables `dist`, `obj_dist` and the out-parameters `hit`,
`material`, `N` of `scene_intersect`. -/
structure SceneState (α : Type) where
  dist : α
  obj_dist : α
  hit : Vec3f α
  material : Material α
  N : Vec3f α

/-- One iteration of the loop `for (auto obj : objs)` in `scene_intersect`. -/
def scene_step (sqrt : α → α) (orig dir : Vec3f α) (st : SceneState α) (obj : Object α) :
    SceneState α :=
  let res := obj.ray_intersect sqrt orig dir st.obj_dist
  if res.1 = true ∧ res.2 < st.dist then
    let hit := orig + dir.scale res.2
    { dist := res.2, obj_dist := res.2, hit := hit, material := obj.material,
      N := obj.normal sqrt hit }
  else
    { st with obj_dist := res.2 }

/-- The state of `scene_intersect` after its loop, entered with the given
values of the out-parameters. -/
def scene_loop (sqrt : α → α) (orig dir : Vec3f α) (objs : List (Object α))
    (hit : Vec3f α) (material : Material α) (N : Vec3f α) : SceneState α :=
  objs.foldl (scene_step sqrt orig dir) ⟨FLT_MAX, FLT_MAX, hit, material, N⟩

/-- The result of `scene_intersect`: the returned boolean and the values of
`hit`, `material` and `N` after the call. -/
structure SceneResult (α : Type) where
  found : Bool
  hit : Vec3f α
  material : Material α
  N : Vec3f α

/-- The function `scene_intersect(orig, dir, objs, hit, material, N)`. -/
def scene_intersect (sqrt : α → α) (orig dir : Vec3f α) (objs : List (Object α))
    (hit : Vec3f α) (material : Material α) (N : Vec3f α) : SceneResult α :=
  let st := scene_loop sqrt orig dir objs hit material N
  ⟨decide (st.dist < 1000), st.hit, st.material, st.N⟩

/-! ## The shader -/

/-- The origin of the shadow ray: the hit point moved by 0.001 along the
normal, to the side of the light. -/
def shadow_origin (light_dir hit_point hit_normal : Vec3f α) : Vec3f α :=
  if light_dir.dot hit_normal < 0 then
    hit_point - hit_normal.scale (1 / 1000)
  else
    hit_point + hit_normal.scale (1 / 1000)

/-- The shadow test of `cast_ray`: the condition under which the light loop
executes `continue`. -/
def in_shadow (sqrt : α → α) (objs : List (Object α)) (hit_point hit_normal : Vec3f α)
    (light : Light α) : Bool :=
  let light_dir := (light.position - hit_point).normalize sqrt
  let light_dist := (light.position - hit_point).norm sqrt
  let shadow_orig := shadow_origin light_dir hit_point hit_normal
  let sh := scene_intersect sqrt shadow_orig light_dir objs Vec3f.zero Material.default Vec3f.zero
  sh.found && decide ((sh.hit - shadow_orig).norm sqrt < light_dist)

/-- Occlusion in the words of the specification: the shadow ray, cast from
the hit point moved by 0.001 along the normal in the direction of the light,
hits some primitive at a distance from the shadow origin strictly less than
the distance from the hit point to the light. -/
def occluded (sqrt : α → α) (objs : List (Object α)) (hit_point hit_normal : Vec3f α)
    (light : Light α) : Bool :=
  let light_dir := (light.position - hit_point).normalize sqrt
  let light_dist := (light.position - hit_point).norm sqrt
  let shadow_orig := shadow_origin light_dir hit_point hit_normal
  objs.any fun obj =>
    match obj.hit_distance sqrt shadow_orig light_dir with
    | some t => decide ((shadow_orig + light_dir.scale t - shadow_orig).norm sqrt < light_dist)
    | none => false

/-- Occlusion below the cutoff: the shadow ray hits some primitive at a
reported distance below the 1000 cutoff of `scene_intersect`, the hit point
being at a distance from the shadow origin strictly less than the distance
from the hit point to the light, and no primitive reports a negative
distance along the shadow ray. -/
def occluded_near (sqrt : α → α) (objs : List (Object α)) (hit_point hit_normal : Vec3f α)
    (light : Light α) : Bool :=
  let light_dir := (light.position - hit_point).normalize sqrt
  let light_dist := (light.position - hit_point).norm sqrt
  let shadow_orig := shadow_origin light_dir hit_point hit_normal
  (objs.any fun obj =>
    match obj.hit_distance sqrt shadow_orig light_dir with
    | some t => decide (t < 1000)
        && decide ((shadow_orig + light_dir.scale t - shadow_orig).norm sqrt < light_dist)
    | none => false)
  && objs.all fun obj =>
    match obj.hit_distance sqrt shadow_orig light_dir with
    | some t => decide (0 ≤ t)
    | none => true

/-- One iteration of the loop `for (auto light : lights)` in `cast_ray`; the
accumulator is the pair (`diffuse_light_intensity`, `specular_light_intensity`). -/
def light_step (sqrt : α → α) (powf : α → α → α) (orig : Vec3f α) (objs : List (Object α))
    (hit_point hit_normal : Vec3f α) (hit_material : Material α) (acc : α × α)
    (light : Light α) : α × α :=
  let light_dir := (light.position - hit_point).normalize sqrt
  if in_shadow sqrt objs hit_point hit_normal light then
    acc
  else
    let diffuse := acc.1 + light.intensity * max 0 (light_dir.dot hit_normal)
    let view_dir := (orig - hit_point).normalize sqrt
    let half_vec := (view_dir + light_dir).normalize sqrt
    let specular := acc.2
      + light.intensity * powf (max 0 (half_vec.dot hit_normal)) hit_material.specular_exponent
    (diffuse, specular)

/-- The pair (`diffuse_light_intensity`, `specular_light_intensity`) after
the light loop of `cast_ray`. -/
def light_loop (sqrt : α → α) (powf : α → α → α) (orig : Vec3f α) (objs : List (Object α))
    (hit_point hit_normal : Vec3f α) (hit_material : Material α) (lights : List (Light α)) :
    α × α :=
  lights.foldl (light_step sqrt powf orig objs hit_point hit_normal hit_material) (0, 0)

/-- The first summand of the colour `cast_ray` returns (`// diffuse dio`). -/
def diffuse_part (hit_material : Material α) (diffuse_light_intensity : α) : Vec3f α :=
  (hit_material.diffuse_color.scale hit_material.albedo.x).scale diffuse_light_intensity

/-- The second summand of the colour `cast_ray` returns (`// specular dio`). -/
def specular_part (hit_material : Material α) (specular_light_intensity : α) : Vec3f α :=
  ((⟨1, 1, 1⟩ : Vec3f α).scale hit_material.albedo.y).scale specular_light_intensity

/-- The function `cast_ray(orig, dir, objs, lights)`. -/
def cast_ray (sqrt : α → α) (powf : α → α → α) (orig dir : Vec3f α) (objs : List (Object α))
    (lights : List (Light α)) : Vec3f α :=
  let sc := scene_intersect sqrt orig dir objs Vec3f.zero Material.default Vec3f.zero
  if !sc.found then
    ⟨7 / 10, 9 / 10, 7 / 10⟩
  else
    let acc := light_loop sqrt powf orig objs sc.hit sc.N sc.material lights
    diffuse_part sc.material acc.1 + specular_part sc.material acc.2

/-! ## render -/

/-- The constant `width` of `render`. -/
def width : ℕ := 1024

/-- The constant `height` of `render`. -/
def height : ℕ := 768

/-- The conversion of a floating value to an integer type: the fractional
part is discarded (truncation towards zero). -/
def trunc {β : Type} [LinearOrderedField β] [FloorRing β] (x : β) : ℤ :=
  if 0 ≤ x then ⌊x⌋ else ⌈x⌉

/-- The constant `const int fov = 3.1415926 / 2.0;` of `render`: the
quotient converted to `int`. -/
def fov : ℤ := trunc ((31415926 / 10000000 : ℚ) / 2)

/-- The local `x` of the pixel loop of `render`, for the column `i`. -/
def render_x (tan : α → α) (i : ℕ) : α :=
  (2 * ((i : α) + 1 / 2) / (width : α) - 1) * tan ((fov : α) / 2) * (width : α) / (height : α)

/-- The local `y` of the pixel loop of `render`, for the row `j`. -/
def render_y (tan : α → α) (j : ℕ) : α :=
  -(2 * ((j : α) + 1 / 2) / (height : α) - 1) * tan ((fov : α) / 2)

/-- The local `dir` of the pixel loop of `render`: the primary ray direction
of the pixel `(i, j)`. -/
def render_dir (sqrt tan : α → α) (i j : ℕ) : Vec3f α :=
  (⟨render_x tan i, render_y tan j, -1⟩ : Vec3f α).normalize sqrt

/-- The primary ray direction in the words of the specification, for a
vertical field of view of π/2, where `tan(fov/2) = 1`. -/
def spec_dir (sqrt : α → α) (i j : ℕ) : Vec3f α :=
  (⟨(2 * ((i : α) + 1 / 2) / 1024 - 1) * (1024 / 768),
    -(2 * ((j : α) + 1 / 2) / 768 - 1), -1⟩ : Vec3f α).normalize sqrt

/-- The index `i + j*width` at which `render` stores the pixel `(i, j)`. -/
def pixel_index (i j : ℕ) : ℕ := i + j * width

/-- The indices a pixel loop with bounds `W` and `H` stores at, in the order
of execution: `for j < H`, `for i < W`, store at `i + j*W`. -/
def loop_writes (W H : ℕ) : List ℕ :=
  (List.range H).foldl
    (fun acc j => (List.range W).foldl (fun acc1 i => acc1 ++ [i + j * W]) acc) []

/-- The indices of the framebuffer `render` stores at, in the order of
execution. -/
def render_writes : List ℕ := loop_writes width height

/-- The byte `render` writes for a channel value `v`:
`(unsigned char)(255.f * std::max(0.f, std::min(1.f, v)))`. -/
def quantise {β : Type} [LinearOrderedField β] [FloorRing β] (v : β) : ℕ :=
  (trunc (255 * max 0 (min 1 v)) % 256).toNat

/-! ## An example scene -/

/-- A purely diffuse red material. -/
def ex_red : Material α := ⟨⟨1, 0⟩, ⟨1, 0, 0⟩, 1⟩

/-- A unit sphere three units in front of the camera. -/
def ex_near : Sphere α := ⟨ex_red, ⟨0, 0, -3⟩, 1⟩

/-- A unit sphere far behind the camera. -/
def ex_far : Sphere α := ⟨Material.default, ⟨0, 0, 1500⟩, 1⟩

/-- The two spheres. -/
def ex_objs : List (Object α) := [.sphere ex_near, .sphere ex_far]

/-- A light beyond the far sphere. -/
def ex_far_light : Light α := ⟨⟨0, 0, 3000⟩, 1⟩

/-- A light between the two spheres, on the axis. -/
def ex_near_light : Light α := ⟨⟨0, 0, 5⟩, 3 / 2⟩

/-- The near sphere with the default material in place of the red one. -/
def ex_twin : Sphere α := ⟨Material.default, ⟨0, 0, -3⟩, 1⟩

/-- A unit sphere behind the camera, between the near sphere and the
blocked light. -/
def ex_block : Sphere α := ⟨Material.default, ⟨0, 0, 10⟩, 1⟩

/-- The near sphere and the blocking sphere. -/
def ex_block_objs : List (Object α) := [.sphere ex_near, .sphere ex_block]

/-- A light on the axis beyond the blocking sphere. -/
def ex_blocked_light : Light α := ⟨⟨0, 0, 30⟩, 1⟩

end Defs

/-! ## Vector algebra over the reals -/

section VectorLemmas

variable {α : Type} [LinearOrderedField α]

theorem Vec3f.add_def (a b : Vec3f α) : a + b = ⟨a.x + b.x, a.y + b.y, a.z + b.z⟩ := rfl

theorem Vec3f.sub_def (a b : Vec3f α) : a - b = ⟨a.x - b.x, a.y - b.y, a.z - b.z⟩ := rfl

theorem Vec3f.dot_self_nonneg (v : Vec3f α) : 0 ≤ v.dot v := by
  unfold Vec3f.dot
  nlinarith [mul_self_nonneg v.x, mul_self_nonneg v.y, mul_self_nonneg v.z]

theorem Vec3f.norm_eq (sqrt : α → α) (v : Vec3f α) : v.norm sqrt = sqrt (v.dot v) := rfl

/-- The squared distance from `c` to the point `p + d * k` of the ray. -/
theorem Vec3f.dot_ray_sub (c p d : Vec3f α) (k : α) :
    (p + d.scale k - c).dot (p + d.scale k - c)
      = k * k * d.dot d - 2 * k * d.dot (c - p) + (c - p).dot (c - p) := by
  simp only [Vec3f.add_def, Vec3f.sub_def, Vec3f.dot, Vec3f.scale]
  ring

theorem Vec3f.dot_sub_ray (c p d : Vec3f α) (k : α) :
    (c - (p + d.scale k)).dot (c - (p + d.scale k))
      = k * k * d.dot d - 2 * k * d.dot (c - p) + (c - p).dot (c - p) := by
  simp only [Vec3f.add_def, Vec3f.sub_def, Vec3f.dot, Vec3f.scale]
  ring

theorem Vec3f.dot_ray_sub_orig (p d : Vec3f α) (k : α) :
    (p + d.scale k - p).dot (p + d.scale k - p) = k * k * d.dot d := by
  simp only [Vec3f.add_def, Vec3f.sub_def, Vec3f.dot, Vec3f.scale]
  ring

end VectorLemmas

theorem Vec3f.dot_self_of_norm_eq_one (d : Vec3f ℝ) (h : d.norm Real.sqrt = 1) : d.dot d = 1 := by
  rw [Vec3f.norm_eq] at h
  have h0 := Vec3f.dot_self_nonneg d
  have := Real.mul_self_sqrt h0
  rw [h] at this
  linarith

theorem Vec3f.norm_eq_iff (v : Vec3f ℝ) (r : ℝ) (hr : 0 ≤ r) :
    v.norm Real.sqrt = r ↔ v.dot v = r * r := by
  rw [Vec3f.norm_eq]
  constructor
  · intro h
    have := Real.mul_self_sqrt (Vec3f.dot_self_nonneg v)
    rw [h] at this
    exact this.symm
  · intro h
    rw [h]
    exact Real.sqrt_mul_self hr

theorem Vec3f.lt_norm_iff (v : Vec3f ℝ) (r : ℝ) (hr : 0 ≤ r) :
    r < v.norm Real.sqrt ↔ r * r < v.dot v := by
  rw [Vec3f.norm_eq, Real.lt_sqrt hr, sq]

theorem Vec3f.norm_lt_iff (v : Vec3f ℝ) (r : ℝ) (hr : 0 < r) :
    v.norm Real.sqrt < r ↔ v.dot v < r * r := by
  rw [Vec3f.norm_eq, Real.sqrt_lt' hr, sq]

/-! ## The sphere intersection for a unit direction -/

/-- For a unit direction the sphere test is a function of `m = d · (c - p)`
and `V = (c - p) · (c - p)` alone. -/
theorem Sphere.ray_intersect_unit (s : Sphere ℝ) (p d : Vec3f ℝ) (t : ℝ)
    (hd : d.norm Real.sqrt = 1) :
    s.ray_intersect Real.sqrt p d t =
      if d.dot (s.c - p) < 0 then (false, t)
      else if (s.c - p).dot (s.c - p) - d.dot (s.c - p) * d.dot (s.c - p) > s.r * s.r then
        (false, t)
      else if (s.c - p).dot (s.c - p) > s.r * s.r then
        (true, d.dot (s.c - p) - Real.sqrt (s.r * s.r
          - ((s.c - p).dot (s.c - p) - d.dot (s.c - p) * d.dot (s.c - p))))
      else
        (true, d.dot (s.c - p) + Real.sqrt (s.r * s.r
          - ((s.c - p).dot (s.c - p) - d.dot (s.c - p) * d.dot (s.c - p)))) := by
  have hdd := Vec3f.dot_self_of_norm_eq_one d hd
  unfold Sphere.ray_intersect
  simp only [hd, div_one, Vec3f.dot_sub_ray, Vec3f.norm_eq, Vec3f.dot_ray_sub_orig, hdd, mul_one]
  by_cases hm : d.dot (s.c - p) < 0
  · simp [hm]
  · have hm0 : 0 ≤ d.dot (s.c - p) := not_lt.mp hm
    rw [Real.sqrt_mul_self hm0]
    have e : d.dot (s.c - p) * d.dot (s.c - p) - 2 * d.dot (s.c - p) * d.dot (s.c - p)
        + (s.c - p).dot (s.c - p)
        = (s.c - p).dot (s.c - p) - d.dot (s.c - p) * d.dot (s.c - p) := by ring
    rw [e]

/-! ## Sphere::ray_intersect: the reported point lies on the sphere -/

/-- C1: for a sphere of centre c and radius r > 0, any origin p and any
unit-length direction d, when `Sphere::ray_intersect` returns true with
output t, then t ≥ 0 and the point p + t·d lies on the sphere, that is
|p + t·d − c|² = r². -/
theorem Sphere.ray_intersect_on_sphere (s : Sphere ℝ) (p d : Vec3f ℝ) (t0 : ℝ) (hr : 0 < s.r)
    (hd : d.norm Real.sqrt = 1) (h : (s.ray_intersect Real.sqrt p d t0).1 = true) :
    0 ≤ (s.ray_intersect Real.sqrt p d t0).2 ∧
      (p + d.scale (s.ray_intersect Real.sqrt p d t0).2 - s.c).dot
        (p + d.scale (s.ray_intersect Real.sqrt p d t0).2 - s.c) = s.r * s.r := by
  have hdd := Vec3f.dot_self_of_norm_eq_one d hd
  rw [Sphere.ray_intersect_unit s p d t0 hd] at h ⊢
  simp only [Vec3f.dot_ray_sub, hdd, mul_one]
  generalize d.dot (s.c - p) = m at h ⊢
  generalize (s.c - p).dot (s.c - p) = V at h ⊢
  split_ifs at h ⊢ with h1 h2 h3
  · have hD : 0 ≤ s.r * s.r - (V - m * m) := by linarith [not_lt.mp h2]
    have hs := Real.mul_self_sqrt hD
    have hs0 := Real.sqrt_nonneg (s.r * s.r - (V - m * m))
    have hm : 0 ≤ m := not_lt.mp h1
    refine ⟨?_, ?_⟩
    · simp only
      nlinarith
    · simp only
      nlinarith
  · have hD : 0 ≤ s.r * s.r - (V - m * m) := by linarith [not_lt.mp h2]
    have hs := Real.mul_self_sqrt hD
    have hs0 := Real.sqrt_nonneg (s.r * s.r - (V - m * m))
    have hm : 0 ≤ m := not_lt.mp h1
    refine ⟨?_, ?_⟩
    · simp only
      nlinarith
    · simp only
      nlinarith

/-- The sphere of centre (0, 0, −3) and radius 1 is hit by the ray from the
origin along (0, 0, −1). -/
theorem Sphere.ray_intersect_on_sphere_witness :
    0 ≤ ((⟨Material.default, ⟨0, 0, -3⟩, 1⟩ : Sphere ℝ).ray_intersect Real.sqrt
        ⟨0, 0, 0⟩ ⟨0, 0, -1⟩ 0).2 ∧
      ((⟨0, 0, 0⟩ : Vec3f ℝ) + (⟨0, 0, -1⟩ : Vec3f ℝ).scale
          ((⟨Material.default, ⟨0, 0, -3⟩, 1⟩ : Sphere ℝ).ray_intersect Real.sqrt
            ⟨0, 0, 0⟩ ⟨0, 0, -1⟩ 0).2 - ⟨0, 0, -3⟩).dot
        ((⟨0, 0, 0⟩ : Vec3f ℝ) + (⟨0, 0, -1⟩ : Vec3f ℝ).scale
          ((⟨Material.default, ⟨0, 0, -3⟩, 1⟩ : Sphere ℝ).ray_intersect Real.sqrt
            ⟨0, 0, 0⟩ ⟨0, 0, -1⟩ 0).2 - ⟨0, 0, -3⟩) = 1 * 1 :=
  have hd : (⟨0, 0, -1⟩ : Vec3f ℝ).norm Real.sqrt = 1 := by norm_num [Vec3f.norm]
  Sphere.ray_intersect_on_sphere ⟨Material.default, ⟨0, 0, -3⟩, 1⟩ ⟨0, 0, 0⟩ ⟨0, 0, -1⟩ 0
    (by norm_num) hd
    (by rw [Sphere.ray_intersect_unit _ _ _ _ hd]; norm_num [Vec3f.dot, Vec3f.sub_def])

/-! ## Sphere::ray_intersect from an origin outside the sphere -/

/-- C2: for a sphere of centre c and radius r > 0, an origin p strictly
outside it and a unit direction d, `Sphere::ray_intersect` returns true
exactly when the forward ray meets the sphere (some k ≥ 0 has
|p + k·d − c| = r); the output t is then the least such k; and when every
point of the line through p along d is farther than r from c, it returns
false. -/
theorem Sphere.ray_intersect_outside (s : Sphere ℝ) (p d : Vec3f ℝ) (t0 : ℝ) (hr : 0 < s.r)
    (hout : s.r < (s.c - p).norm Real.sqrt) (hd : d.norm Real.sqrt = 1) :
    ((s.ray_intersect Real.sqrt p d t0).1 = true ↔
        ∃ k : ℝ, 0 ≤ k ∧ (p + d.scale k - s.c).norm Real.sqrt = s.r) ∧
      ((s.ray_intersect Real.sqrt p d t0).1 = true →
        0 ≤ (s.ray_intersect Real.sqrt p d t0).2 ∧
        (p + d.scale (s.ray_intersect Real.sqrt p d t0).2 - s.c).norm Real.sqrt = s.r ∧
        ∀ k : ℝ, 0 ≤ k → (p + d.scale k - s.c).norm Real.sqrt = s.r →
          (s.ray_intersect Real.sqrt p d t0).2 ≤ k) ∧
      ((∀ k : ℝ, s.r < (p + d.scale k - s.c).norm Real.sqrt) →
        (s.ray_intersect Real.sqrt p d t0).1 = false) := by
  have hdd := Vec3f.dot_self_of_norm_eq_one d hd
  rw [Vec3f.lt_norm_iff _ _ hr.le] at hout
  rw [Sphere.ray_intersect_unit s p d t0 hd]
  simp only [Vec3f.norm_eq_iff _ _ hr.le, Vec3f.lt_norm_iff _ _ hr.le, Vec3f.dot_ray_sub, hdd,
    mul_one]
  generalize d.dot (s.c - p) = m
  generalize (s.c - p).dot (s.c - p) = V at hout
  by_cases h1 : m < 0
  · simp only [h1, if_true, Bool.false_eq_true, false_iff, false_imp_iff, not_exists, not_and,
      true_and, implies_true, and_true]
    intro k hk hk2
    nlinarith
  · by_cases h2 : V - m * m > s.r * s.r
    · simp only [h1, h2, if_true, if_false, Bool.false_eq_true, false_iff, false_imp_iff,
        not_exists, not_and, true_and, implies_true, and_true]
      intro k hk hk2
      nlinarith [mul_self_nonneg (k - m)]
    · have hD : 0 ≤ s.r * s.r - (V - m * m) := by linarith [not_lt.mp h2]
      have hs := Real.mul_self_sqrt hD
      have hs0 := Real.sqrt_nonneg (s.r * s.r - (V - m * m))
      have hm : 0 ≤ m := not_lt.mp h1
      simp only [h1, h2, hout, if_true, if_false, true_iff, true_imp_iff, gt_iff_lt]
      generalize Real.sqrt (s.r * s.r - (V - m * m)) = q at hs hs0
      have ht : 0 ≤ m - q := by nlinarith
      have hon : (m - q) * (m - q) - 2 * (m - q) * m + V = s.r * s.r := by nlinarith
      refine ⟨⟨m - q, ht, hon⟩, ⟨ht, hon, ?_⟩, ?_⟩
      · intro k _ hk2
        by_contra hlt
        have hlt2 : q < m - k := by linarith [not_le.mp hlt]
        nlinarith
      · intro hall
        have := hall (m - q)
        linarith

/-- The sphere of centre (0, 0, −3) and radius 1 seen from the origin along
(0, 0, −1). -/
theorem Sphere.ray_intersect_outside_witness :
    (((⟨Material.default, ⟨0, 0, -3⟩, 1⟩ : Sphere ℝ).ray_intersect Real.sqrt
        ⟨0, 0, 0⟩ ⟨0, 0, -1⟩ 0).1 = true ↔
        ∃ k : ℝ, 0 ≤ k ∧
          ((⟨0, 0, 0⟩ : Vec3f ℝ) + (⟨0, 0, -1⟩ : Vec3f ℝ).scale k - ⟨0, 0, -3⟩).norm Real.sqrt
            = 1) :=
  (Sphere.ray_intersect_outside ⟨Material.default, ⟨0, 0, -3⟩, 1⟩ ⟨0, 0, 0⟩ ⟨0, 0, -1⟩ 0
    (by norm_num)
    (by
      rw [Vec3f.lt_norm_iff _ _ (by norm_num)]
      norm_num [Vec3f.dot, Vec3f.sub_def])
    (by norm_num [Vec3f.norm])).1

/-! ## Cylinder::ray_intersect: the reported point lies on the lateral surface -/

/-- The body of `Cylinder::ray_intersect` with its locals named. -/
theorem Cylinder.ray_intersect_eq {α : Type} [LinearOrderedField α] (sqrt : α → α)
    (cy : Cylinder α) (p d : Vec3f α) (t : α) :
    cy.ray_intersect sqrt p d t =
      if d.dot (cy.centar - p) < 0 then (false, t)
      else if cy.disc p d < 0 then (false, t)
      else if p.y + cy.chosen_t sqrt p d * d.y ≥ cy.centar.y
          ∧ p.y + cy.chosen_t sqrt p d * d.y ≤ cy.centar.y + cy.h then
        (decide (cy.chosen_t sqrt p d ≠ 0), cy.chosen_t sqrt p d)
      else (false, cy.chosen_t sqrt p d) := rfl

/-- With `a > 0` the value chosen for `t` is the smaller root
`(−b − √D) / 2a`. -/
theorem Cylinder.chosen_t_eq (cy : Cylinder ℝ) (p d : Vec3f ℝ) (ha : 0 < Cylinder.quad_a d) :
    cy.chosen_t Real.sqrt p d
      = (-cy.quad_b p d - Real.sqrt (cy.disc p d)) / (2 * Cylinder.quad_a d) := by
  unfold Cylinder.chosen_t
  rw [if_neg]
  rw [gt_iff_lt, not_lt]
  apply div_le_div_of_nonneg_right _ (by linarith)
  linarith [Real.sqrt_nonneg (cy.disc p d)]

/-- Evaluating a square root at a perfect square. -/
theorem sqrt_eval (a b : ℝ) (hb : 0 ≤ b) (h : a = b * b) : Real.sqrt a = b := by
  rw [h]
  exact Real.sqrt_mul_self hb

section Resolver

variable {α : Type} [LinearOrderedField α]

/-- The boolean `Sphere::ray_intersect` returns, and the `t` it writes when
it returns true, do not depend on the value `t` held before the call. -/
theorem Sphere.sphere_indep (sqrt : α → α) (s : Sphere α) (p d : Vec3f α) (t0 t1 : α) :
    (s.ray_intersect sqrt p d t0).1 = (s.ray_intersect sqrt p d t1).1 ∧
      ((s.ray_intersect sqrt p d t0).1 = true →
        (s.ray_intersect sqrt p d t0).2 = (s.ray_intersect sqrt p d t1).2) := by
  unfold Sphere.ray_intersect
  simp only
  split_ifs <;> simp

/-- The boolean `Cylinder::ray_intersect` returns, and the `t` it writes when
it returns true, do not depend on the value `t` held before the call. -/
theorem Cylinder.cylinder_indep (sqrt : α → α) (cy : Cylinder α) (p d : Vec3f α)
    (t0 t1 : α) :
    (cy.ray_intersect sqrt p d t0).1 = (cy.ray_intersect sqrt p d t1).1 ∧
      ((cy.ray_intersect sqrt p d t0).1 = true →
        (cy.ray_intersect sqrt p d t0).2 = (cy.ray_intersect sqrt p d t1).2) := by
  rw [Cylinder.ray_intersect_eq, Cylinder.ray_intersect_eq]
  split_ifs <;> simp

theorem Object.ray_intersect_indep (sqrt : α → α) (obj : Object α) (p d : Vec3f α) (t0 t1 : α) :
    (obj.ray_intersect sqrt p d t0).1 = (obj.ray_intersect sqrt p d t1).1 ∧
      ((obj.ray_intersect sqrt p d t0).1 = true →
        (obj.ray_intersect sqrt p d t0).2 = (obj.ray_intersect sqrt p d t1).2) := by
  cases obj with
  | sphere s => exact Sphere.sphere_indep sqrt s p d t0 t1
  | cylinder c => exact Cylinder.cylinder_indep sqrt c p d t0 t1

/-- The reported distance, read off a call with any initial `t`. -/
theorem Object.hit_distance_eq (sqrt : α → α) (obj : Object α) (p d : Vec3f α) (t0 : α) :
    obj.hit_distance sqrt p d =
      if (obj.ray_intersect sqrt p d t0).1 = true then some (obj.ray_intersect sqrt p d t0).2
      else none := by
  unfold Object.hit_distance
  obtain ⟨h1, h2⟩ := Object.ray_intersect_indep sqrt obj p d 0 t0
  by_cases h : (obj.ray_intersect sqrt p d 0).1 = true
  · rw [if_pos h, if_pos (h1 ▸ h), h2 h]
  · rw [if_neg h, if_neg (h1 ▸ h)]

theorem FLT_MAX_gt : (1000 : α) < FLT_MAX := by
  unfold FLT_MAX
  norm_num

/-- The loop invariant of `scene_intersect`. -/
theorem scene_loop_inv (sqrt : α → α) (orig dir : Vec3f α) (h0 : Vec3f α) (m0 : Material α)
    (n0 : Vec3f α) (objs : List (Object α)) :
    (∀ o ∈ objs, ∀ t, o.hit_distance sqrt orig dir = some t →
        (scene_loop sqrt orig dir objs h0 m0 n0).dist ≤ t) ∧
      (((scene_loop sqrt orig dir objs h0 m0 n0).dist = FLT_MAX ∧
          (scene_loop sqrt orig dir objs h0 m0 n0).hit = h0 ∧
          (scene_loop sqrt orig dir objs h0 m0 n0).material = m0 ∧
          (scene_loop sqrt orig dir objs h0 m0 n0).N = n0) ∨
        ∃ l1 o l2, objs = l1 ++ o :: l2 ∧
          o.hit_distance sqrt orig dir = some (scene_loop sqrt orig dir objs h0 m0 n0).dist ∧
          (scene_loop sqrt orig dir objs h0 m0 n0).dist < FLT_MAX ∧
          (∀ o1 ∈ l1, ∀ t, o1.hit_distance sqrt orig dir = some t →
            (scene_loop sqrt orig dir objs h0 m0 n0).dist < t) ∧
          (scene_loop sqrt orig dir objs h0 m0 n0).hit
            = orig + dir.scale (scene_loop sqrt orig dir objs h0 m0 n0).dist ∧
          (scene_loop sqrt orig dir objs h0 m0 n0).N
            = o.normal sqrt (scene_loop sqrt orig dir objs h0 m0 n0).hit ∧
          (scene_loop sqrt orig dir objs h0 m0 n0).material = o.material) := by
  induction objs using List.reverseRecOn with
  | nil =>
    refine ⟨?_, Or.inl ⟨rfl, rfl, rfl, rfl⟩⟩
    intro o ho
    simp at ho
  | append_singleton l x ih =>
    have hstep : scene_loop sqrt orig dir (l ++ [x]) h0 m0 n0
        = scene_step sqrt orig dir (scene_loop sqrt orig dir l h0 m0 n0) x := by
      unfold scene_loop
      rw [List.foldl_append]
      rfl
    rw [hstep]
    generalize scene_loop sqrt orig dir l h0 m0 n0 = st at ih
    obtain ⟨hmin, hcase⟩ := ih
    have hle : st.dist ≤ FLT_MAX := by
      rcases hcase with ⟨e, -⟩ | ⟨_, _, _, _, _, hlt, _⟩
      · exact e.le
      · exact hlt.le
    have hx := Object.hit_distance_eq sqrt x orig dir st.obj_dist
    unfold scene_step
    simp only
    by_cases hc : (x.ray_intersect sqrt orig dir st.obj_dist).1 = true
        ∧ (x.ray_intersect sqrt orig dir st.obj_dist).2 < st.dist
    · rw [if_pos hc]
      rw [if_pos hc.1] at hx
      refine ⟨?_, Or.inr ⟨l, x, [], rfl, hx, lt_of_lt_of_le hc.2 hle, ?_, rfl, rfl, rfl⟩⟩
      · intro o ho t ht
        rcases List.mem_append.mp ho with ho | ho
        · exact le_trans hc.2.le (hmin o ho t ht)
        · rw [List.mem_singleton.mp ho, hx] at ht
          exact (Option.some.inj ht).le
      · intro o ho t ht
        exact lt_of_lt_of_le hc.2 (hmin o ho t ht)
    · rw [if_neg hc]
      have hxle : ∀ t, x.hit_distance sqrt orig dir = some t → st.dist ≤ t := by
        intro t ht
        by_cases h1 : (x.ray_intersect sqrt orig dir st.obj_dist).1 = true
        · rw [if_pos h1] at hx
          rw [hx] at ht
          have := Option.some.inj ht
          rw [← this]
          exact not_lt.mp (fun h2 => hc ⟨h1, h2⟩)
        · rw [if_neg h1] at hx
          rw [hx] at ht
          exact absurd ht (by simp)
      refine ⟨?_, ?_⟩
      · intro o ho t ht
        rcases List.mem_append.mp ho with ho | ho
        · exact hmin o ho t ht
        · rw [List.mem_singleton.mp ho] at ht
          exact hxle t ht
      · rcases hcase with hc1 | ⟨l1, o, l2, e, ho, hlt, hl1, hh, hn, hm⟩
        · exact Or.inl hc1
        · refine Or.inr ⟨l1, o, l2 ++ [x], ?_, ho, hlt, hl1, hh, hn, hm⟩
          rw [e]
          simp

/-- A hit reported by `scene_intersect` is at a distance below 1000 reported
by one of the primitives. -/
theorem scene_intersect_found (sqrt : α → α) (orig dir : Vec3f α) (objs : List (Object α))
    (h0 : Vec3f α) (m0 : Material α) (n0 : Vec3f α)
    (h : (scene_intersect sqrt orig dir objs h0 m0 n0).found = true) :
    ∃ o ∈ objs, ∃ t, o.hit_distance sqrt orig dir = some t ∧ t < 1000 ∧
      (scene_intersect sqrt orig dir objs h0 m0 n0).hit = orig + dir.scale t := by
  obtain ⟨-, hcase⟩ := scene_loop_inv sqrt orig dir h0 m0 n0 objs
  unfold scene_intersect at h ⊢
  simp only [decide_eq_true_eq] at h ⊢
  rcases hcase with ⟨e, -⟩ | ⟨l1, o, l2, e, ho, _, _, hh, _, _⟩
  · rw [e] at h
    exact absurd h (not_lt.mpr FLT_MAX_gt.le)
  · exact ⟨o, by rw [e]; simp, _, ho, h, hh⟩

/-- C4: for every list of primitives and every ray, `scene_intersect`
returns true exactly when some primitive reports a hit and the least
reported distance t_min is below 1000; the hit point it then outputs is
orig + dir·t_min, and the normal (taken at that hit point) and the material
are those of the first primitive of the list that reports t_min: every
primitive before it reports a strictly larger distance or none. -/
theorem scene_intersect_nearest (sqrt : α → α) (orig dir : Vec3f α) (objs : List (Object α))
    (h0 : Vec3f α) (m0 : Material α) (n0 : Vec3f α) :
    ((scene_intersect sqrt orig dir objs h0 m0 n0).found = true ↔
        ∃ o ∈ objs, ∃ t, o.hit_distance sqrt orig dir = some t ∧
          (∀ o1 ∈ objs, ∀ t1, o1.hit_distance sqrt orig dir = some t1 → t ≤ t1) ∧
          t < 1000) ∧
      ((scene_intersect sqrt orig dir objs h0 m0 n0).found = true →
        ∃ l1 o l2 t, objs = l1 ++ o :: l2 ∧
          o.hit_distance sqrt orig dir = some t ∧
          (∀ o1 ∈ objs, ∀ t1, o1.hit_distance sqrt orig dir = some t1 → t ≤ t1) ∧
          (∀ o1 ∈ l1, ∀ t1, o1.hit_distance sqrt orig dir = some t1 → t < t1) ∧
          t < 1000 ∧
          (scene_intersect sqrt orig dir objs h0 m0 n0).hit = orig + dir.scale t ∧
          (scene_intersect sqrt orig dir objs h0 m0 n0).N = o.normal sqrt (orig + dir.scale t) ∧
          (scene_intersect sqrt orig dir objs h0 m0 n0).material = o.material) := by
  obtain ⟨hmin, hcase⟩ := scene_loop_inv sqrt orig dir h0 m0 n0 objs
  unfold scene_intersect
  simp only [decide_eq_true_eq]
  generalize scene_loop sqrt orig dir objs h0 m0 n0 = st at hmin hcase
  have hsel : st.dist < 1000 →
      ∃ l1 o l2 t, objs = l1 ++ o :: l2 ∧
          o.hit_distance sqrt orig dir = some t ∧
          (∀ o1 ∈ objs, ∀ t1, o1.hit_distance sqrt orig dir = some t1 → t ≤ t1) ∧
          (∀ o1 ∈ l1, ∀ t1, o1.hit_distance sqrt orig dir = some t1 → t < t1) ∧
          t < 1000 ∧ st.hit = orig + dir.scale t ∧ st.N = o.normal sqrt (orig + dir.scale t) ∧
          st.material = o.material := by
    intro hlt
    rcases hcase with ⟨e, -⟩ | ⟨l1, o, l2, e, ho, _, hl1, hh, hn, hm⟩
    · rw [e] at hlt
      exact absurd hlt (not_lt.mpr FLT_MAX_gt.le)
    · exact ⟨l1, o, l2, st.dist, e, ho, hmin, hl1, hlt, hh, hh ▸ hn, hm⟩
  refine ⟨⟨?_, ?_⟩, hsel⟩
  · intro hlt
    obtain ⟨l1, o, l2, t, e, ho, hall, -, ht, -⟩ := hsel hlt
    exact ⟨o, by rw [e]; simp, t, ho, hall, ht⟩
  · rintro ⟨o, ho, t, hot, -, ht⟩
    exact lt_of_le_of_lt (hmin o ho t hot) ht

end Resolver

/-! ## Sphere::ray_intersect from an origin inside the sphere -/

/-- C5, as stated, fails: from the origin (0, 0, 1), strictly inside the
sphere of centre (0, 0, 0) and radius 2, the unit direction (0, 0, 1) points
away from the centre and `Sphere::ray_intersect` returns false, leaving `t`
as it was. -/
theorem Sphere.inside_looking_away_rejected :
    (0 : ℝ) < 2 ∧
      ((⟨0, 0, 0⟩ : Vec3f ℝ) - ⟨0, 0, 1⟩).norm Real.sqrt < 2 ∧
      (⟨0, 0, 1⟩ : Vec3f ℝ).norm Real.sqrt = 1 ∧
      (⟨Material.default, ⟨0, 0, 0⟩, 2⟩ : Sphere ℝ).ray_intersect Real.sqrt
        ⟨0, 0, 1⟩ ⟨0, 0, 1⟩ 0 = (false, 0) := by
  refine ⟨by norm_num, ?_, ?_, ?_⟩
  · rw [Vec3f.norm_lt_iff _ _ (by norm_num)]
    norm_num [Vec3f.dot, Vec3f.sub_def]
  · norm_num [Vec3f.norm]
  · rw [Sphere.ray_intersect_unit _ _ _ _ (by norm_num [Vec3f.norm])]
    norm_num [Vec3f.dot, Vec3f.sub_def]

/-- C5, amended: for a sphere of centre c and radius r > 0, an origin p
strictly inside it and a unit direction d, `Sphere::ray_intersect` returns
true exactly when d · (c − p) ≥ 0; in that case its output t is positive,
p + t·d is at distance r from c, and t is the only k > 0 with
|p + k·d − c| = r (the exit point). -/
theorem Sphere.ray_intersect_inside (s : Sphere ℝ) (p d : Vec3f ℝ) (t0 : ℝ) (hr : 0 < s.r)
    (hin : (s.c - p).norm Real.sqrt < s.r) (hd : d.norm Real.sqrt = 1) :
    ((s.ray_intersect Real.sqrt p d t0).1 = true ↔ 0 ≤ d.dot (s.c - p)) ∧
      (0 ≤ d.dot (s.c - p) →
        0 < (s.ray_intersect Real.sqrt p d t0).2 ∧
        (p + d.scale (s.ray_intersect Real.sqrt p d t0).2 - s.c).norm Real.sqrt = s.r ∧
        ∀ k : ℝ, 0 < k → (p + d.scale k - s.c).norm Real.sqrt = s.r →
          k = (s.ray_intersect Real.sqrt p d t0).2) := by
  have hdd := Vec3f.dot_self_of_norm_eq_one d hd
  rw [Vec3f.norm_lt_iff _ _ hr] at hin
  rw [Sphere.ray_intersect_unit s p d t0 hd]
  simp only [Vec3f.norm_eq_iff _ _ hr.le, Vec3f.dot_ray_sub, hdd, mul_one]
  generalize d.dot (s.c - p) = m
  generalize (s.c - p).dot (s.c - p) = V at hin
  by_cases h1 : m < 0
  · simp only [h1, if_true, Bool.false_eq_true, false_iff, not_le, true_and]
    intro h
    linarith
  · have hm : 0 ≤ m := not_lt.mp h1
    have h2 : ¬ V - m * m > s.r * s.r := by
      rw [gt_iff_lt, not_lt]
      nlinarith [mul_self_nonneg m]
    have h3 : ¬ V > s.r * s.r := by
      rw [gt_iff_lt, not_lt]
      exact hin.le
    have hD : 0 ≤ s.r * s.r - (V - m * m) := by linarith [not_lt.mp h2]
    have hs := Real.mul_self_sqrt hD
    have hs0 := Real.sqrt_nonneg (s.r * s.r - (V - m * m))
    simp only [h1, h2, h3, if_false, hm, iff_true, true_imp_iff, true_and]
    generalize Real.sqrt (s.r * s.r - (V - m * m)) = q at hs hs0
    have hqm : m < q := by
      by_contra hle
      nlinarith [not_lt.mp hle]
    refine ⟨by linarith, by nlinarith, ?_⟩
    intro k hk hk2
    have hfac : (k - (m + q)) * (k - (m - q)) = 0 := by nlinarith
    rcases mul_eq_zero.mp hfac with h | h
    · linarith
    · linarith

/-- From (0, 0, 1) inside the sphere of centre (0, 0, 0) and radius 2, looking
along (0, 0, −1) towards the centre. -/
theorem Sphere.ray_intersect_inside_witness :
    0 < ((⟨Material.default, ⟨0, 0, 0⟩, 2⟩ : Sphere ℝ).ray_intersect Real.sqrt
        ⟨0, 0, 1⟩ ⟨0, 0, -1⟩ 0).2 :=
  ((Sphere.ray_intersect_inside ⟨Material.default, ⟨0, 0, 0⟩, 2⟩ ⟨0, 0, 1⟩ ⟨0, 0, -1⟩ 0
    (by norm_num)
    (by
      rw [Vec3f.norm_lt_iff _ _ (by norm_num)]
      norm_num [Vec3f.dot, Vec3f.sub_def])
    (by norm_num [Vec3f.norm])).2 (by norm_num [Vec3f.dot, Vec3f.sub_def])).1

/-! ## Cylinder::ray_intersect: the returned boolean -/

/-- The boolean `Cylinder::ray_intersect` returns past the two rejections:
the height test together with `t != 0`. -/
theorem Cylinder.ray_intersect_true_iff (cy : Cylinder ℝ) (p d : Vec3f ℝ) (t0 : ℝ)
    (hv : 0 ≤ d.dot (cy.centar - p)) (hD : 0 ≤ cy.disc p d) :
    (cy.ray_intersect Real.sqrt p d t0).1 = true ↔
      (cy.centar.y ≤ p.y + cy.chosen_t Real.sqrt p d * d.y
        ∧ p.y + cy.chosen_t Real.sqrt p d * d.y ≤ cy.centar.y + cy.h)
      ∧ cy.chosen_t Real.sqrt p d ≠ 0 := by
  rw [Cylinder.ray_intersect_eq, if_neg (not_lt.mpr hv), if_neg (not_lt.mpr hD)]
  by_cases hy : p.y + cy.chosen_t Real.sqrt p d * d.y ≥ cy.centar.y
      ∧ p.y + cy.chosen_t Real.sqrt p d * d.y ≤ cy.centar.y + cy.h
  · rw [if_pos hy]
    simp only [decide_eq_true_eq]
    exact ⟨fun h => ⟨hy, h⟩, fun h => h.2⟩
  · rw [if_neg hy]
    simp only [Bool.false_eq_true, false_iff, not_and]
    intro h
    exact absurd h hy

/-- C6 fails on the code at t = 0: for the cylinder of base centre (0, 0, 0),
radius 1 and height 2, the origin (−1, 1, 0) on its lateral surface and the
direction (1, 0, 0), the hypotheses of the claim hold, the smaller root is
t = 0 and the height there, y = 1, lies in [0, 2]; yet
`Cylinder::ray_intersect` returns false, because its accepting branch is
`return t;`. -/
theorem Cylinder.ray_intersect_zero_root :
    0 ≤ (⟨1, 0, 0⟩ : Vec3f ℝ).dot ((⟨0, 0, 0⟩ : Vec3f ℝ) - ⟨-1, 1, 0⟩) ∧
      0 < (⟨1, 0, 0⟩ : Vec3f ℝ).x ^ 2 + (⟨1, 0, 0⟩ : Vec3f ℝ).z ^ 2 ∧
      0 ≤ (⟨Material.default, ⟨0, 0, 0⟩, 1, 2⟩ : Cylinder ℝ).disc ⟨-1, 1, 0⟩ ⟨1, 0, 0⟩ ∧
      (⟨Material.default, ⟨0, 0, 0⟩, 1, 2⟩ : Cylinder ℝ).chosen_t Real.sqrt
        ⟨-1, 1, 0⟩ ⟨1, 0, 0⟩ = 0 ∧
      (0 : ℝ) ≤ 1 + (⟨Material.default, ⟨0, 0, 0⟩, 1, 2⟩ : Cylinder ℝ).chosen_t Real.sqrt
        ⟨-1, 1, 0⟩ ⟨1, 0, 0⟩ * 0 ∧
      (1 : ℝ) + (⟨Material.default, ⟨0, 0, 0⟩, 1, 2⟩ : Cylinder ℝ).chosen_t Real.sqrt
        ⟨-1, 1, 0⟩ ⟨1, 0, 0⟩ * 0 ≤ 0 + 2 ∧
      (⟨Material.default, ⟨0, 0, 0⟩, 1, 2⟩ : Cylinder ℝ).ray_intersect Real.sqrt
        ⟨-1, 1, 0⟩ ⟨1, 0, 0⟩ 5 = (false, 0) := by
  have h4 : Real.sqrt 4 = 2 := sqrt_eval 4 2 (by norm_num) (by norm_num)
  have hD : (⟨Material.default, ⟨0, 0, 0⟩, 1, 2⟩ : Cylinder ℝ).disc ⟨-1, 1, 0⟩ ⟨1, 0, 0⟩ = 4 := by
    norm_num [Cylinder.disc, Cylinder.quad_a, Cylinder.quad_b, Cylinder.quad_c]
  have ht : (⟨Material.default, ⟨0, 0, 0⟩, 1, 2⟩ : Cylinder ℝ).chosen_t Real.sqrt
      ⟨-1, 1, 0⟩ ⟨1, 0, 0⟩ = 0 := by
    unfold Cylinder.chosen_t
    rw [hD, h4]
    norm_num [Cylinder.quad_a, Cylinder.quad_b]
  refine ⟨by norm_num [Vec3f.dot, Vec3f.sub_def], by norm_num, by rw [hD]; norm_num, ht,
    by norm_num, by norm_num, ?_⟩
  rw [Cylinder.ray_intersect_eq, ht, hD]
  norm_num [Vec3f.dot, Vec3f.sub_def]

/-! ## scene_intersect and hits behind the ray origin -/

/-- C7 fails on the code: for the cylinder of base centre (0, 0, 0), radius 3
and height 8 and the ray from (−1, 4, 0), inside it, along the unit direction
(1, 0, 0), `Cylinder::ray_intersect` returns true with the negative smaller
root t = −2, and `scene_intersect` reports a hit at (−3, 4, 0), behind the
ray origin. -/
theorem scene_intersect_negative_distance :
    (⟨1, 0, 0⟩ : Vec3f ℝ).norm Real.sqrt = 1 ∧
      (⟨Material.default, ⟨0, 0, 0⟩, 3, 8⟩ : Cylinder ℝ).ray_intersect Real.sqrt
        ⟨-1, 4, 0⟩ ⟨1, 0, 0⟩ 0 = (true, -2) ∧
      (scene_intersect Real.sqrt ⟨-1, 4, 0⟩ ⟨1, 0, 0⟩
        [Object.cylinder ⟨Material.default, ⟨0, 0, 0⟩, 3, 8⟩]
        Vec3f.zero Material.default Vec3f.zero).found = true ∧
      (scene_intersect Real.sqrt ⟨-1, 4, 0⟩ ⟨1, 0, 0⟩
        [Object.cylinder ⟨Material.default, ⟨0, 0, 0⟩, 3, 8⟩]
        Vec3f.zero Material.default Vec3f.zero).hit = ⟨-3, 4, 0⟩ := by
  have h36 : Real.sqrt 36 = 6 := sqrt_eval 36 6 (by norm_num) (by norm_num)
  have hD : (⟨Material.default, ⟨0, 0, 0⟩, 3, 8⟩ : Cylinder ℝ).disc ⟨-1, 4, 0⟩ ⟨1, 0, 0⟩
      = 36 := by
    norm_num [Cylinder.disc, Cylinder.quad_a, Cylinder.quad_b, Cylinder.quad_c]
  have ht : (⟨Material.default, ⟨0, 0, 0⟩, 3, 8⟩ : Cylinder ℝ).chosen_t Real.sqrt
      ⟨-1, 4, 0⟩ ⟨1, 0, 0⟩ = -2 := by
    unfold Cylinder.chosen_t
    rw [hD, h36]
    norm_num [Cylinder.quad_a, Cylinder.quad_b]
  have hc : ∀ t0 : ℝ, (⟨Material.default, ⟨0, 0, 0⟩, 3, 8⟩ : Cylinder ℝ).ray_intersect
      Real.sqrt ⟨-1, 4, 0⟩ ⟨1, 0, 0⟩ t0 = (true, -2) := by
    intro t0
    rw [Cylinder.ray_intersect_eq, ht, hD]
    norm_num [Vec3f.dot, Vec3f.sub_def]
  have hlt : (-2 : ℝ) < FLT_MAX := by
    unfold FLT_MAX
    norm_num
  refine ⟨by norm_num [Vec3f.norm], hc 0, ?_, ?_⟩
  · simp only [scene_intersect, scene_loop, List.foldl, scene_step, Object.ray_intersect, hc,
      hlt, and_self, if_true]
    norm_num
  · simp only [scene_intersect, scene_loop, List.foldl, scene_step, Object.ray_intersect, hc,
      hlt, and_self, if_true]
    norm_num [Vec3f.add_def, Vec3f.scale]

/-! ## cast_ray: lights in shadow -/

section Shadows

variable {α : Type} [LinearOrderedField α]

/-- A light that fails the shadow test leaves both accumulators unchanged. -/
theorem light_step_in_shadow (sqrt : α → α) (powf : α → α → α) (orig : Vec3f α)
    (objs : List (Object α)) (hit n : Vec3f α) (m : Material α) (acc : α × α) (l : Light α)
    (h : in_shadow sqrt objs hit n l = true) :
    light_step sqrt powf orig objs hit n m acc l = acc := by
  unfold light_step
  simp only [h, if_true]

/-- The colour `cast_ray` returns on a hit. -/
theorem cast_ray_of_found (sqrt : α → α) (powf : α → α → α) (orig dir : Vec3f α)
    (objs : List (Object α)) (lights : List (Light α))
    (h : (scene_intersect sqrt orig dir objs Vec3f.zero Material.default Vec3f.zero).found
      = true) :
    cast_ray sqrt powf orig dir objs lights
      = diffuse_part
          (scene_intersect sqrt orig dir objs Vec3f.zero Material.default Vec3f.zero).material
          (light_loop sqrt powf orig objs
            (scene_intersect sqrt orig dir objs Vec3f.zero Material.default Vec3f.zero).hit
            (scene_intersect sqrt orig dir objs Vec3f.zero Material.default Vec3f.zero).N
            (scene_intersect sqrt orig dir objs Vec3f.zero Material.default Vec3f.zero).material
            lights).1
        + specular_part
          (scene_intersect sqrt orig dir objs Vec3f.zero Material.default Vec3f.zero).material
          (light_loop sqrt powf orig objs
            (scene_intersect sqrt orig dir objs Vec3f.zero Material.default Vec3f.zero).hit
            (scene_intersect sqrt orig dir objs Vec3f.zero Material.default Vec3f.zero).N
            (scene_intersect sqrt orig dir objs Vec3f.zero Material.default Vec3f.zero).material
            lights).2 := by
  unfold cast_ray
  simp only [h, Bool.not_true, Bool.false_eq_true, if_false]

/-- With no accumulated light the colour is black. -/
theorem shade_zero (m : Material α) :
    diffuse_part m 0 + specular_part m 0 = (⟨0, 0, 0⟩ : Vec3f α) := by
  simp [diffuse_part, specular_part, Vec3f.add_def, Vec3f.scale]

/-- A hit is reported as soon as some primitive reports a distance below 1000;
the distance selected is then the least one reported. -/
theorem scene_intersect_min (sqrt : α → α) (orig dir : Vec3f α) (objs : List (Object α))
    (h0 : Vec3f α) (m0 : Material α) (n0 : Vec3f α) (o : Object α) (ho : o ∈ objs) (t : α)
    (ht : o.hit_distance sqrt orig dir = some t) (hlt : t < 1000) :
    (scene_intersect sqrt orig dir objs h0 m0 n0).found = true ∧
      ∃ o1 ∈ objs, ∃ t1, o1.hit_distance sqrt orig dir = some t1 ∧ t1 ≤ t ∧
        (scene_intersect sqrt orig dir objs h0 m0 n0).hit = orig + dir.scale t1 := by
  obtain ⟨hmin, hcase⟩ := scene_loop_inv sqrt orig dir h0 m0 n0 objs
  unfold scene_intersect
  simp only [decide_eq_true_eq]
  have hd := hmin o ho t ht
  refine ⟨lt_of_le_of_lt hd hlt, ?_⟩
  rcases hcase with ⟨e, -⟩ | ⟨l1, o1, l2, e, ho1, _, _, hh, _, _⟩
  · rw [e] at hd
    exact absurd (lt_of_le_of_lt hd hlt) (not_lt.mpr FLT_MAX_gt.le)
  · exact ⟨o1, by rw [e]; simp, _, ho1, hd, hh⟩

/-- The light loop skips every light of a family of lights that fail the
shadow test. -/
theorem foldl_light_step_skip (sqrt : α → α) (powf : α → α → α) (orig : Vec3f α)
    (objs : List (Object α)) (hit n : Vec3f α) (m : Material α) (p : Light α → Bool)
    (hp : ∀ l, p l = true → in_shadow sqrt objs hit n l = true) (lights : List (Light α)) :
    ∀ acc : α × α,
      lights.foldl (light_step sqrt powf orig objs hit n m) acc
        = (lights.filter fun l => !p l).foldl (light_step sqrt powf orig objs hit n m) acc := by
  induction lights with
  | nil => intro acc; rfl
  | cons l ls ih =>
    intro acc
    by_cases h : p l = true
    · rw [List.foldl_cons, light_step_in_shadow sqrt powf orig objs hit n m acc l (hp l h),
        List.filter_cons_of_neg (by simp [h])]
      exact ih acc
    · rw [List.foldl_cons, List.filter_cons_of_pos (by simpa using h), List.foldl_cons]
      exact ih _

/-- On a hit, `cast_ray` ignores every light of a family of lights that fail
the shadow test. -/
theorem cast_ray_skip (sqrt : α → α) (powf : α → α → α) (orig dir : Vec3f α)
    (objs : List (Object α)) (lights : List (Light α)) (p : Light α → Bool)
    (hhit : (scene_intersect sqrt orig dir objs Vec3f.zero Material.default Vec3f.zero).found
      = true)
    (hp : ∀ l, p l = true → in_shadow sqrt objs
      (scene_intersect sqrt orig dir objs Vec3f.zero Material.default Vec3f.zero).hit
      (scene_intersect sqrt orig dir objs Vec3f.zero Material.default Vec3f.zero).N l = true) :
    cast_ray sqrt powf orig dir objs lights
        = cast_ray sqrt powf orig dir objs (lights.filter fun l => !p l) ∧
      ((∀ l ∈ lights, p l = true) → cast_ray sqrt powf orig dir objs lights = ⟨0, 0, 0⟩) ∧
      cast_ray sqrt powf orig dir objs [] = ⟨0, 0, 0⟩ := by
  have hnil : cast_ray sqrt powf orig dir objs [] = ⟨0, 0, 0⟩ := by
    rw [cast_ray_of_found sqrt powf orig dir objs [] hhit]
    exact shade_zero _
  have hfilter := foldl_light_step_skip sqrt powf orig objs
    (scene_intersect sqrt orig dir objs Vec3f.zero Material.default Vec3f.zero).hit
    (scene_intersect sqrt orig dir objs Vec3f.zero Material.default Vec3f.zero).N
    (scene_intersect sqrt orig dir objs Vec3f.zero Material.default Vec3f.zero).material
    p hp lights (0, 0)
  have hfirst : cast_ray sqrt powf orig dir objs lights
        = cast_ray sqrt powf orig dir objs (lights.filter fun l => !p l) := by
    rw [cast_ray_of_found sqrt powf orig dir objs _ hhit,
      cast_ray_of_found sqrt powf orig dir objs _ hhit]
    unfold light_loop
    rw [← hfilter]
  refine ⟨hfirst, ?_, hnil⟩
  intro hall
  rw [hfirst]
  have : (lights.filter fun l => !p l) = [] := by
    rw [List.filter_eq_nil_iff]
    intro l hl
    simp [hall l hl]
  rw [this]
  exact hnil

end Shadows

/-! ## The example scene evaluated -/

theorem ex_near_primary (t0 : ℝ) :
    (ex_near : Sphere ℝ).ray_intersect Real.sqrt ⟨0, 0, 0⟩ ⟨0, 0, -1⟩ t0 = (true, 2) := by
  rw [Sphere.ray_intersect_unit _ _ _ _ (by norm_num [Vec3f.norm])]
  norm_num [ex_near, Vec3f.dot, Vec3f.sub_def]

theorem ex_far_primary (t0 : ℝ) :
    (ex_far : Sphere ℝ).ray_intersect Real.sqrt ⟨0, 0, 0⟩ ⟨0, 0, -1⟩ t0 = (false, t0) := by
  rw [Sphere.ray_intersect_unit _ _ _ _ (by norm_num [Vec3f.norm])]
  norm_num [ex_far, Vec3f.dot, Vec3f.sub_def]

theorem ex_scene_primary :
    scene_intersect Real.sqrt ⟨0, 0, 0⟩ ⟨0, 0, -1⟩ (ex_objs : List (Object ℝ))
      Vec3f.zero Material.default Vec3f.zero = ⟨true, ⟨0, 0, -2⟩, ex_red, ⟨0, 0, 1⟩⟩ := by
  have hlt : (2 : ℝ) < FLT_MAX := by unfold FLT_MAX; norm_num
  simp only [scene_intersect, scene_loop, ex_objs, List.foldl, scene_step, Object.ray_intersect,
    ex_near_primary, ex_far_primary, hlt, and_self, if_true, Bool.false_eq_true, false_and,
    if_false, Object.material, Object.normal, Sphere.normal]
  norm_num [Vec3f.add_def, Vec3f.sub_def, Vec3f.scale, Vec3f.normalize, Vec3f.norm, ex_near]

theorem ex_light_norm :
    ((⟨0, 0, 3000⟩ : Vec3f ℝ) - ⟨0, 0, -2⟩).norm Real.sqrt = 3002 := by
  rw [Vec3f.norm_eq_iff _ _ (by norm_num)]
  norm_num [Vec3f.dot, Vec3f.sub_def]

theorem ex_light_dir :
    ((⟨0, 0, 3000⟩ : Vec3f ℝ) - ⟨0, 0, -2⟩).normalize Real.sqrt = ⟨0, 0, 1⟩ := by
  unfold Vec3f.normalize
  rw [ex_light_norm]
  norm_num [Vec3f.sub_def, Vec3f.scale]

theorem ex_shadow_origin :
    shadow_origin (⟨0, 0, 1⟩ : Vec3f ℝ) ⟨0, 0, -2⟩ ⟨0, 0, 1⟩ = ⟨0, 0, -1999 / 1000⟩ := by
  norm_num [shadow_origin, Vec3f.dot, Vec3f.add_def, Vec3f.scale]

theorem ex_near_shadow (t0 : ℝ) :
    (ex_near : Sphere ℝ).ray_intersect Real.sqrt ⟨0, 0, -1999 / 1000⟩ ⟨0, 0, 1⟩ t0
      = (false, t0) := by
  rw [Sphere.ray_intersect_unit _ _ _ _ (by norm_num [Vec3f.norm])]
  norm_num [ex_near, Vec3f.dot, Vec3f.sub_def]

theorem ex_far_shadow (t0 : ℝ) :
    (ex_far : Sphere ℝ).ray_intersect Real.sqrt ⟨0, 0, -1999 / 1000⟩ ⟨0, 0, 1⟩ t0
      = (true, 1500999 / 1000) := by
  rw [Sphere.ray_intersect_unit _ _ _ _ (by norm_num [Vec3f.norm])]
  norm_num [ex_far, Vec3f.dot, Vec3f.sub_def]

theorem ex_scene_shadow :
    (scene_intersect Real.sqrt ⟨0, 0, -1999 / 1000⟩ ⟨0, 0, 1⟩ (ex_objs : List (Object ℝ))
      Vec3f.zero Material.default Vec3f.zero).found = false := by
  have hlt : (1500999 / 1000 : ℝ) < FLT_MAX := by unfold FLT_MAX; norm_num
  simp only [scene_intersect, scene_loop, ex_objs, List.foldl, scene_step, Object.ray_intersect,
    ex_near_shadow, ex_far_shadow, hlt, and_self, if_true, Bool.false_eq_true, false_and,
    if_false]
  norm_num

theorem ex_in_shadow :
    in_shadow Real.sqrt (ex_objs : List (Object ℝ)) ⟨0, 0, -2⟩ ⟨0, 0, 1⟩ ex_far_light
      = false := by
  simp only [in_shadow, ex_far_light, ex_light_dir, ex_shadow_origin, ex_scene_shadow,
    Bool.false_and]

theorem ex_occluded :
    occluded Real.sqrt (ex_objs : List (Object ℝ)) ⟨0, 0, -2⟩ ⟨0, 0, 1⟩ ex_far_light
      = true := by
  have hd : Object.hit_distance Real.sqrt (Object.sphere ex_far)
      (⟨0, 0, -1999 / 1000⟩ : Vec3f ℝ) ⟨0, 0, 1⟩ = some (1500999 / 1000) := by
    simp only [Object.hit_distance, Object.ray_intersect, ex_far_shadow, if_true]
  have hn : Object.hit_distance Real.sqrt (Object.sphere ex_near)
      (⟨0, 0, -1999 / 1000⟩ : Vec3f ℝ) ⟨0, 0, 1⟩ = none := by
    simp [Object.hit_distance, Object.ray_intersect, ex_near_shadow]
  simp only [occluded, ex_far_light, ex_light_dir, ex_shadow_origin, ex_light_norm, ex_objs,
    List.any, hd, hn, Bool.false_or, Bool.or_false]
  rw [decide_eq_true_eq, Vec3f.norm_lt_iff _ _ (by norm_num)]
  norm_num [Vec3f.dot, Vec3f.sub_def, Vec3f.add_def, Vec3f.scale]

theorem ex_cast_ray :
    cast_ray Real.sqrt Real.rpow ⟨0, 0, 0⟩ ⟨0, 0, -1⟩ (ex_objs : List (Object ℝ)) [ex_far_light]
      = ⟨1, 0, 0⟩ := by
  rw [cast_ray_of_found _ _ _ _ _ _ (by rw [ex_scene_primary])]
  simp only [ex_scene_primary, light_loop, List.foldl, light_step, ex_in_shadow]
  simp only [ex_far_light, ex_light_dir]
  norm_num [diffuse_part, specular_part, ex_red, Vec3f.dot, Vec3f.scale, Vec3f.add_def]

theorem ex_block_primary (t0 : ℝ) :
    (ex_block : Sphere ℝ).ray_intersect Real.sqrt ⟨0, 0, 0⟩ ⟨0, 0, -1⟩ t0 = (false, t0) := by
  rw [Sphere.ray_intersect_unit _ _ _ _ (by norm_num [Vec3f.norm])]
  norm_num [ex_block, Vec3f.dot, Vec3f.sub_def]

theorem ex_block_scene_primary :
    scene_intersect Real.sqrt ⟨0, 0, 0⟩ ⟨0, 0, -1⟩ (ex_block_objs : List (Object ℝ))
      Vec3f.zero Material.default Vec3f.zero = ⟨true, ⟨0, 0, -2⟩, ex_red, ⟨0, 0, 1⟩⟩ := by
  have hlt : (2 : ℝ) < FLT_MAX := by unfold FLT_MAX; norm_num
  simp only [scene_intersect, scene_loop, ex_block_objs, List.foldl, scene_step,
    Object.ray_intersect, ex_near_primary, ex_block_primary, hlt, and_self, if_true,
    Bool.false_eq_true, false_and, if_false, Object.material, Object.normal, Sphere.normal]
  norm_num [Vec3f.add_def, Vec3f.sub_def, Vec3f.scale, Vec3f.normalize, Vec3f.norm, ex_near]

theorem ex_single_scene_primary :
    scene_intersect Real.sqrt ⟨0, 0, 0⟩ ⟨0, 0, -1⟩ ([.sphere ex_near] : List (Object ℝ))
      Vec3f.zero Material.default Vec3f.zero = ⟨true, ⟨0, 0, -2⟩, ex_red, ⟨0, 0, 1⟩⟩ := by
  have hlt : (2 : ℝ) < FLT_MAX := by unfold FLT_MAX; norm_num
  simp only [scene_intersect, scene_loop, List.foldl, scene_step,
    Object.ray_intersect, ex_near_primary, hlt, and_self, if_true,
    Object.material, Object.normal, Sphere.normal]
  norm_num [Vec3f.add_def, Vec3f.sub_def, Vec3f.scale, Vec3f.normalize, Vec3f.norm, ex_near]

theorem ex_blocked_light_norm :
    ((⟨0, 0, 30⟩ : Vec3f ℝ) - ⟨0, 0, -2⟩).norm Real.sqrt = 32 := by
  rw [Vec3f.norm_eq_iff _ _ (by norm_num)]
  norm_num [Vec3f.dot, Vec3f.sub_def]

theorem ex_blocked_light_dir :
    ((⟨0, 0, 30⟩ : Vec3f ℝ) - ⟨0, 0, -2⟩).normalize Real.sqrt = ⟨0, 0, 1⟩ := by
  unfold Vec3f.normalize
  rw [ex_blocked_light_norm]
  norm_num [Vec3f.sub_def, Vec3f.scale]

theorem ex_block_shadow (t0 : ℝ) :
    (ex_block : Sphere ℝ).ray_intersect Real.sqrt ⟨0, 0, -1999 / 1000⟩ ⟨0, 0, 1⟩ t0
      = (true, 10999 / 1000) := by
  rw [Sphere.ray_intersect_unit _ _ _ _ (by norm_num [Vec3f.norm])]
  norm_num [ex_block, Vec3f.dot, Vec3f.sub_def]

/-- In the blocked scene the light beyond the blocking sphere is occluded
below the cutoff: the shadow ray meets the blocking sphere at distance 10.999,
below 1000 and below the distance 32 to the light, and the only other
primitive reports nothing. -/
theorem ex_blocked_occluded_near :
    occluded_near Real.sqrt (ex_block_objs : List (Object ℝ)) ⟨0, 0, -2⟩ ⟨0, 0, 1⟩
      ex_blocked_light = true := by
  have hd : Object.hit_distance Real.sqrt (Object.sphere ex_block)
      (⟨0, 0, -1999 / 1000⟩ : Vec3f ℝ) ⟨0, 0, 1⟩ = some (10999 / 1000) := by
    simp only [Object.hit_distance, Object.ray_intersect, ex_block_shadow, if_true]
  have hn : Object.hit_distance Real.sqrt (Object.sphere ex_near)
      (⟨0, 0, -1999 / 1000⟩ : Vec3f ℝ) ⟨0, 0, 1⟩ = none := by
    simp [Object.hit_distance, Object.ray_intersect, ex_near_shadow]
  have hnorm : ((⟨0, 0, -1999 / 1000⟩ : Vec3f ℝ) + (⟨0, 0, 1⟩ : Vec3f ℝ).scale (10999 / 1000)
      - ⟨0, 0, -1999 / 1000⟩).norm Real.sqrt < 32 := by
    rw [Vec3f.norm_lt_iff _ _ (by norm_num)]
    norm_num [Vec3f.dot, Vec3f.sub_def, Vec3f.add_def, Vec3f.scale]
  simp only [occluded_near, ex_blocked_light, ex_blocked_light_dir, ex_shadow_origin,
    ex_blocked_light_norm, ex_block_objs, List.any, List.all, hd, hn, Bool.false_or,
    Bool.or_false, Bool.true_and, Bool.and_true, Bool.and_eq_true, decide_eq_true_eq]
  exact ⟨⟨by norm_num, hnorm⟩, by norm_num⟩

theorem ex_single_scene_shadow :
    (scene_intersect Real.sqrt ⟨0, 0, -1999 / 1000⟩ ⟨0, 0, 1⟩
      ([.sphere ex_near] : List (Object ℝ)) Vec3f.zero Material.default Vec3f.zero).found
      = false := by
  simp only [scene_intersect, scene_loop, List.foldl, scene_step, Object.ray_intersect,
    ex_near_shadow, Bool.false_eq_true, false_and, if_false]
  unfold FLT_MAX
  norm_num

/-- With the blocking sphere taken out of the scene the same light is not in
shadow and gives the colour (1, 0, 0). -/
theorem ex_unblocked_cast_ray :
    cast_ray Real.sqrt Real.rpow ⟨0, 0, 0⟩ ⟨0, 0, -1⟩ ([.sphere ex_near] : List (Object ℝ))
      [ex_blocked_light] = ⟨1, 0, 0⟩ := by
  have hs : in_shadow Real.sqrt ([.sphere ex_near] : List (Object ℝ)) ⟨0, 0, -2⟩ ⟨0, 0, 1⟩
      ex_blocked_light = false := by
    simp only [in_shadow, ex_blocked_light, ex_blocked_light_dir, ex_shadow_origin,
      ex_single_scene_shadow, Bool.false_and]
  rw [cast_ray_of_found _ _ _ _ _ _ (by rw [ex_single_scene_primary])]
  simp only [ex_single_scene_primary, light_loop, List.foldl, light_step, hs]
  simp only [ex_blocked_light, ex_blocked_light_dir]
  norm_num [diffuse_part, specular_part, ex_red, Vec3f.dot, Vec3f.scale, Vec3f.add_def]

/-! ## cast_ray: occlusion, background and diffuse shading -/

/-- C8, as stated, fails: the ray from the origin along (0, 0, −1) hits the
near sphere at (0, 0, −2); the shadow ray towards the light at (0, 0, 3000)
hits the far sphere at distance 1500.999 from the shadow origin, less than
the distance 3002 to the light, so the light is occluded in the sense of the
claim; but 1500.999 is not below the cutoff 1000 of `scene_intersect`, the
shadow test of `cast_ray` fails, and the light contributes: the colour is
(1, 0, 0), not (0, 0, 0). -/
theorem cast_ray_occluded_counterexample :
    (scene_intersect Real.sqrt ⟨0, 0, 0⟩ ⟨0, 0, -1⟩ (ex_objs : List (Object ℝ))
        Vec3f.zero Material.default Vec3f.zero).found = true ∧
      (∀ l ∈ [(ex_far_light : Light ℝ)], occluded Real.sqrt (ex_objs : List (Object ℝ))
        (scene_intersect Real.sqrt ⟨0, 0, 0⟩ ⟨0, 0, -1⟩ (ex_objs : List (Object ℝ))
          Vec3f.zero Material.default Vec3f.zero).hit
        (scene_intersect Real.sqrt ⟨0, 0, 0⟩ ⟨0, 0, -1⟩ (ex_objs : List (Object ℝ))
          Vec3f.zero Material.default Vec3f.zero).N l = true) ∧
      cast_ray Real.sqrt Real.rpow ⟨0, 0, 0⟩ ⟨0, 0, -1⟩ (ex_objs : List (Object ℝ))
        [ex_far_light] = ⟨1, 0, 0⟩ ∧
      cast_ray Real.sqrt Real.rpow ⟨0, 0, 0⟩ ⟨0, 0, -1⟩ (ex_objs : List (Object ℝ))
        [ex_far_light] ≠ ⟨0, 0, 0⟩ := by
  refine ⟨by rw [ex_scene_primary], ?_, ex_cast_ray, ?_⟩
  · intro l hl
    rw [List.mem_singleton.mp hl, ex_scene_primary]
    exact ex_occluded
  · rw [ex_cast_ray]
    intro h
    have := congrArg Vec3f.x h
    norm_num at this

/-- Along a ray, a hit at a smaller non-negative distance is not farther from
the origin of the ray. -/
theorem Vec3f.norm_ray_mono (o d : Vec3f ℝ) (s t : ℝ) (hs : 0 ≤ s) (hst : s ≤ t) :
    (o + d.scale s - o).norm Real.sqrt ≤ (o + d.scale t - o).norm Real.sqrt := by
  rw [Vec3f.norm_eq, Vec3f.norm_eq, Vec3f.dot_ray_sub_orig, Vec3f.dot_ray_sub_orig]
  apply Real.sqrt_le_sqrt
  exact mul_le_mul_of_nonneg_right (mul_self_le_mul_self hs hst) (Vec3f.dot_self_nonneg d)

/-- A light occluded below the cutoff fails the shadow test of `cast_ray`. -/
theorem in_shadow_of_occluded_near (objs : List (Object ℝ)) (hit n : Vec3f ℝ) (l : Light ℝ)
    (h : occluded_near Real.sqrt objs hit n l = true) :
    in_shadow Real.sqrt objs hit n l = true := by
  unfold occluded_near at h
  simp only [Bool.and_eq_true, List.any_eq_true, List.all_eq_true] at h
  obtain ⟨⟨o, ho, hocc⟩, hnonneg⟩ := h
  unfold in_shadow
  simp only [Bool.and_eq_true, decide_eq_true_eq]
  generalize (l.position - hit).normalize Real.sqrt = dir at hocc hnonneg ⊢
  generalize (l.position - hit).norm Real.sqrt = ld at hocc ⊢
  generalize shadow_origin dir hit n = so at hocc hnonneg ⊢
  cases ht : o.hit_distance Real.sqrt so dir with
  | none =>
    rw [ht] at hocc
    simp at hocc
  | some t =>
    rw [ht] at hocc
    simp only [Bool.and_eq_true, decide_eq_true_eq] at hocc
    obtain ⟨hfound, o1, ho1, t1, ht1, hle, hh⟩ :=
      scene_intersect_min Real.sqrt so dir objs Vec3f.zero Material.default Vec3f.zero o ho t ht
        hocc.1
    refine ⟨hfound, ?_⟩
    have h0 : 0 ≤ t1 := by
      have := hnonneg o1 ho1
      rw [ht1] at this
      simpa using this
    rw [hh]
    exact lt_of_le_of_lt (Vec3f.norm_ray_mono so dir t1 t h0 hle) hocc.2

/-- C8, amended: reading float arithmetic as exact real arithmetic, for every
ray that hits the scene and every list of lights, a light is occluded below
the cutoff when the shadow ray, cast from the hit point moved by 0.001 along
the normal in the direction of the light, hits some primitive at a reported
distance below 1000, at a point whose distance from the shadow origin is
strictly less than the distance from the hit point to the light, while no
primitive reports a negative distance along the shadow ray. Every such light
contributes nothing: `cast_ray` returns the colour it returns with those
lights removed from the list, and returns (0, 0, 0) when every light is
occluded below the cutoff or the list is empty. -/
theorem cast_ray_shadow (orig dir : Vec3f ℝ) (objs : List (Object ℝ))
    (lights : List (Light ℝ))
    (hhit : (scene_intersect Real.sqrt orig dir objs Vec3f.zero Material.default
      Vec3f.zero).found = true) :
    cast_ray Real.sqrt Real.rpow orig dir objs lights
        = cast_ray Real.sqrt Real.rpow orig dir objs
            (lights.filter fun l => !occluded_near Real.sqrt objs
              (scene_intersect Real.sqrt orig dir objs Vec3f.zero Material.default
                Vec3f.zero).hit
              (scene_intersect Real.sqrt orig dir objs Vec3f.zero Material.default
                Vec3f.zero).N l) ∧
      ((∀ l ∈ lights, occluded_near Real.sqrt objs
            (scene_intersect Real.sqrt orig dir objs Vec3f.zero Material.default Vec3f.zero).hit
            (scene_intersect Real.sqrt orig dir objs Vec3f.zero Material.default Vec3f.zero).N l
            = true) →
        cast_ray Real.sqrt Real.rpow orig dir objs lights = ⟨0, 0, 0⟩) ∧
      cast_ray Real.sqrt Real.rpow orig dir objs [] = ⟨0, 0, 0⟩ :=
  cast_ray_skip Real.sqrt Real.rpow orig dir objs lights
    (fun l => occluded_near Real.sqrt objs
      (scene_intersect Real.sqrt orig dir objs Vec3f.zero Material.default Vec3f.zero).hit
      (scene_intersect Real.sqrt orig dir objs Vec3f.zero Material.default Vec3f.zero).N l)
    hhit
    (fun l hl => in_shadow_of_occluded_near objs _ _ l hl)

/-- In the blocked scene the primary ray from the origin along (0, 0, −1) hits
the near sphere at (0, 0, −2); the light at (0, 0, 30) is occluded below the
cutoff by the blocking sphere, and the colour is (0, 0, 0), where the same
light gives (1, 0, 0) once the blocking sphere is taken out. -/
theorem cast_ray_shadow_witness :
    occluded_near Real.sqrt (ex_block_objs : List (Object ℝ)) ⟨0, 0, -2⟩ ⟨0, 0, 1⟩
        ex_blocked_light = true ∧
      cast_ray Real.sqrt Real.rpow ⟨0, 0, 0⟩ ⟨0, 0, -1⟩ (ex_block_objs : List (Object ℝ))
        [ex_blocked_light] = ⟨0, 0, 0⟩ ∧
      cast_ray Real.sqrt Real.rpow ⟨0, 0, 0⟩ ⟨0, 0, -1⟩ ([.sphere ex_near] : List (Object ℝ))
        [ex_blocked_light] = ⟨1, 0, 0⟩ :=
  ⟨ex_blocked_occluded_near,
    (cast_ray_shadow ⟨0, 0, 0⟩ ⟨0, 0, -1⟩ (ex_block_objs : List (Object ℝ))
      [ex_blocked_light] (by rw [ex_block_scene_primary])).2.1
      (by
        intro l hl
        rw [List.mem_singleton.mp hl, ex_block_scene_primary]
        exact ex_blocked_occluded_near),
    ex_unblocked_cast_ray⟩

section Background

variable {α : Type} [LinearOrderedField α]

/-- A light that fails the shadow test of `cast_ray` is occluded in the
sense of the specification. -/
theorem occluded_of_in_shadow (sqrt : α → α) (objs : List (Object α)) (hit n : Vec3f α)
    (l : Light α) (h : in_shadow sqrt objs hit n l = true) :
    occluded sqrt objs hit n l = true := by
  unfold in_shadow at h
  simp only [Bool.and_eq_true, decide_eq_true_eq] at h
  obtain ⟨hf, hlt⟩ := h
  obtain ⟨o, hmem, t, ho, -, hh⟩ :=
    scene_intersect_found sqrt _ _ objs Vec3f.zero Material.default Vec3f.zero hf
  unfold occluded
  simp only
  rw [List.any_eq_true]
  refine ⟨o, hmem, ?_⟩
  rw [ho]
  simp only [decide_eq_true_eq]
  rw [← hh]
  exact hlt

/-- C9: for every ray, primitive list and light list, when
`scene_intersect` reports no hit, `cast_ray` returns exactly the background
colour (0.7, 0.9, 0.7), whatever the lights; this is the case in particular
when the primitive list is empty and when every reported distance is at
least 1000. -/
theorem cast_ray_background (sqrt : α → α) (powf : α → α → α) (orig dir : Vec3f α)
    (objs : List (Object α)) (lights : List (Light α)) :
    ((scene_intersect sqrt orig dir objs Vec3f.zero Material.default Vec3f.zero).found = false →
        cast_ray sqrt powf orig dir objs lights = ⟨7 / 10, 9 / 10, 7 / 10⟩) ∧
      cast_ray sqrt powf orig dir [] lights = ⟨7 / 10, 9 / 10, 7 / 10⟩ ∧
      ((∀ o ∈ objs, ∀ t, o.hit_distance sqrt orig dir = some t → 1000 ≤ t) →
        cast_ray sqrt powf orig dir objs lights = ⟨7 / 10, 9 / 10, 7 / 10⟩) := by
  have key : ∀ objs1 : List (Object α),
      (scene_intersect sqrt orig dir objs1 Vec3f.zero Material.default Vec3f.zero).found = false →
        cast_ray sqrt powf orig dir objs1 lights = ⟨7 / 10, 9 / 10, 7 / 10⟩ := by
    intro objs1 h
    unfold cast_ray
    simp only [h, Bool.not_false, if_true]
  have hnone : ∀ objs1 : List (Object α),
      (∀ o ∈ objs1, ∀ t, o.hit_distance sqrt orig dir = some t → 1000 ≤ t) →
      (scene_intersect sqrt orig dir objs1 Vec3f.zero Material.default Vec3f.zero).found
        = false := by
    intro objs1 hall
    by_contra hne
    have ht : (scene_intersect sqrt orig dir objs1 Vec3f.zero Material.default Vec3f.zero).found
        = true := by simpa using hne
    obtain ⟨o, ho, t, hot, hlt, -⟩ :=
      scene_intersect_found sqrt orig dir objs1 Vec3f.zero Material.default Vec3f.zero ht
    exact absurd hlt (not_lt.mpr (hall o ho t hot))
  refine ⟨key objs, key [] (hnone [] ?_), fun hall => key objs (hnone objs hall)⟩
  intro o ho
  simp at ho

end Background

theorem specular_part_zero (m : Material ℝ) (k : ℝ) (h : m.albedo.y = 0) :
    specular_part m k = ⟨0, 0, 0⟩ := by
  simp [specular_part, Vec3f.scale, h]

/-- C10: for a hit with unit surface normal n and a single light of
intensity I that passes the shadow test of `cast_ray` (as every light not
occluded does) and whose normalised direction from the hit point equals n,
the colour `cast_ray` returns is I · albedo[0] · diffuse_color plus the
specular part; hence when albedo[1] = 0 the colour is exactly
I · albedo[0] · diffuse_color. -/
theorem cast_ray_diffuse (orig dir : Vec3f ℝ) (objs : List (Object ℝ)) (light : Light ℝ)
    (hhit : (scene_intersect Real.sqrt orig dir objs Vec3f.zero Material.default Vec3f.zero).found
      = true)
    (hn : (scene_intersect Real.sqrt orig dir objs Vec3f.zero Material.default Vec3f.zero).N.norm
      Real.sqrt = 1)
    (hdir : (light.position
        - (scene_intersect Real.sqrt orig dir objs Vec3f.zero Material.default Vec3f.zero).hit
        ).normalize Real.sqrt
      = (scene_intersect Real.sqrt orig dir objs Vec3f.zero Material.default Vec3f.zero).N)
    (hsh : in_shadow Real.sqrt objs
      (scene_intersect Real.sqrt orig dir objs Vec3f.zero Material.default Vec3f.zero).hit
      (scene_intersect Real.sqrt orig dir objs Vec3f.zero Material.default Vec3f.zero).N light
      = false) :
    cast_ray Real.sqrt Real.rpow orig dir objs [light]
        = (scene_intersect Real.sqrt orig dir objs Vec3f.zero Material.default
            Vec3f.zero).material.diffuse_color.scale
          (light.intensity * (scene_intersect Real.sqrt orig dir objs Vec3f.zero Material.default
            Vec3f.zero).material.albedo.x)
          + specular_part
            (scene_intersect Real.sqrt orig dir objs Vec3f.zero Material.default
              Vec3f.zero).material
            (light_loop Real.sqrt Real.rpow orig objs
              (scene_intersect Real.sqrt orig dir objs Vec3f.zero Material.default Vec3f.zero).hit
              (scene_intersect Real.sqrt orig dir objs Vec3f.zero Material.default Vec3f.zero).N
              (scene_intersect Real.sqrt orig dir objs Vec3f.zero Material.default
                Vec3f.zero).material
              [light]).2 ∧
      ((scene_intersect Real.sqrt orig dir objs Vec3f.zero Material.default
            Vec3f.zero).material.albedo.y = 0 →
        cast_ray Real.sqrt Real.rpow orig dir objs [light]
          = (scene_intersect Real.sqrt orig dir objs Vec3f.zero Material.default
              Vec3f.zero).material.diffuse_color.scale
            (light.intensity * (scene_intersect Real.sqrt orig dir objs Vec3f.zero
              Material.default Vec3f.zero).material.albedo.x)) := by
  rw [cast_ray_of_found Real.sqrt Real.rpow orig dir objs [light] hhit]
  generalize scene_intersect Real.sqrt orig dir objs Vec3f.zero Material.default Vec3f.zero = sc
    at hn hdir hsh
  have hnn := Vec3f.dot_self_of_norm_eq_one sc.N hn
  have hdiff : (light_loop Real.sqrt Real.rpow orig objs sc.hit sc.N sc.material [light]).1
      = light.intensity := by
    simp only [light_loop, List.foldl, light_step, hsh, Bool.false_eq_true, if_false, hdir, hnn]
    norm_num
  have hd : diffuse_part sc.material
      (light_loop Real.sqrt Real.rpow orig objs sc.hit sc.N sc.material [light]).1
      = sc.material.diffuse_color.scale (light.intensity * sc.material.albedo.x) := by
    rw [hdiff]
    simp only [diffuse_part, Vec3f.scale, Vec3f.mk.injEq]
    refine ⟨by ring, by ring, by ring⟩
  refine ⟨by rw [hd], ?_⟩
  intro hy
  rw [hd, specular_part_zero _ _ hy]
  simp [Vec3f.add_def]

theorem ex_near_light_norm :
    ((⟨0, 0, 5⟩ : Vec3f ℝ) - ⟨0, 0, -2⟩).norm Real.sqrt = 7 := by
  rw [Vec3f.norm_eq_iff _ _ (by norm_num)]
  norm_num [Vec3f.dot, Vec3f.sub_def]

theorem ex_near_light_dir :
    ((⟨0, 0, 5⟩ : Vec3f ℝ) - ⟨0, 0, -2⟩).normalize Real.sqrt = ⟨0, 0, 1⟩ := by
  unfold Vec3f.normalize
  rw [ex_near_light_norm]
  norm_num [Vec3f.sub_def, Vec3f.scale]

theorem ex_near_light_not_in_shadow :
    in_shadow Real.sqrt (ex_objs : List (Object ℝ)) ⟨0, 0, -2⟩ ⟨0, 0, 1⟩ ex_near_light
      = false := by
  simp only [in_shadow, ex_near_light, ex_near_light_dir, ex_shadow_origin, ex_scene_shadow,
    Bool.false_and]

/-- The example scene lit by the light at (0, 0, 5) of intensity 1.5, straight
above the hit point (0, 0, −2) along the normal (0, 0, 1). -/
theorem cast_ray_diffuse_witness :
    cast_ray Real.sqrt Real.rpow ⟨0, 0, 0⟩ ⟨0, 0, -1⟩ (ex_objs : List (Object ℝ)) [ex_near_light]
      = (⟨3 / 2, 0, 0⟩ : Vec3f ℝ) := by
  have h := (cast_ray_diffuse ⟨0, 0, 0⟩ ⟨0, 0, -1⟩ (ex_objs : List (Object ℝ)) ex_near_light
    (by rw [ex_scene_primary])
    (by rw [ex_scene_primary]; norm_num [Vec3f.norm])
    (by rw [ex_scene_primary]; exact ex_near_light_dir)
    (by rw [ex_scene_primary]; exact ex_near_light_not_in_shadow)).2
    (by rw [ex_scene_primary]; rfl)
  rw [h, ex_scene_primary]
  norm_num [ex_red, ex_near_light, Vec3f.scale]

/-- The example scene: the near sphere is the nearest reported hit. -/
theorem scene_intersect_nearest_witness :
    ∃ o ∈ (ex_objs : List (Object ℝ)), ∃ t,
      o.hit_distance Real.sqrt ⟨0, 0, 0⟩ ⟨0, 0, -1⟩ = some t ∧
        (∀ o1 ∈ (ex_objs : List (Object ℝ)), ∀ t1,
          o1.hit_distance Real.sqrt ⟨0, 0, 0⟩ ⟨0, 0, -1⟩ = some t1 → t ≤ t1) ∧
        t < 1000 :=
  (scene_intersect_nearest Real.sqrt ⟨0, 0, 0⟩ ⟨0, 0, -1⟩ (ex_objs : List (Object ℝ))
    Vec3f.zero Material.default Vec3f.zero).1.mp (by rw [ex_scene_primary])

/-- The example scene seen along a ray that reports no hit. -/
theorem cast_ray_background_witness :
    cast_ray Real.sqrt Real.rpow ⟨0, 0, -1999 / 1000⟩ ⟨0, 0, 1⟩ (ex_objs : List (Object ℝ))
      [ex_far_light] = ⟨7 / 10, 9 / 10, 7 / 10⟩ :=
  (cast_ray_background Real.sqrt Real.rpow ⟨0, 0, -1999 / 1000⟩ ⟨0, 0, 1⟩
    (ex_objs : List (Object ℝ)) [ex_far_light]).1 ex_scene_shadow

/-! ## render: the field of view -/

theorem fov_eq : fov = 1 := by
  unfold fov trunc
  rw [if_pos (by norm_num), Int.floor_eq_iff]
  norm_num

theorem tan_half_pos : 0 < Real.tan (1 / 2) :=
  Real.tan_pos_of_pos_of_lt_pi_div_two (by norm_num) (by linarith [Real.pi_gt_three])

theorem tan_half_lt_one : Real.tan (1 / 2) < 1 := by
  have h := Real.tan_lt_tan_of_lt_of_lt_pi_div_two (x := 1 / 2) (y := Real.pi / 4)
    (by linarith [Real.pi_gt_three]) (by linarith [Real.pi_gt_three])
    (by linarith [Real.pi_gt_three])
  rwa [Real.tan_pi_div_four] at h

/-- Two vectors with third component −1 and different lengths have different
normalizations. -/
theorem normalize_z_ne (a b c d : ℝ) (h : a * a + b * b < c * c + d * d) :
    (⟨a, b, -1⟩ : Vec3f ℝ).normalize Real.sqrt ≠ (⟨c, d, -1⟩ : Vec3f ℝ).normalize Real.sqrt := by
  intro he
  have hz := congrArg Vec3f.z he
  simp only [Vec3f.normalize, Vec3f.scale, Vec3f.norm] at hz
  have hA : 0 < a * a + b * b + -1 * -1 := by nlinarith [mul_self_nonneg a, mul_self_nonneg b]
  have hlt : Real.sqrt (a * a + b * b + -1 * -1) < Real.sqrt (c * c + d * d + -1 * -1) :=
    Real.sqrt_lt_sqrt hA.le (by linarith)
  have hpos : 0 < Real.sqrt (a * a + b * b + -1 * -1) := Real.sqrt_pos.mpr hA
  have := one_div_lt_one_div_of_lt hpos hlt
  linarith

/-- C11 fails on the code: `fov` is declared `const int`, so the quotient
3.1415926 / 2.0 is truncated to 1 and the factor `tan(fov/2.)` is
tan(1/2) < 1, not tan(π/4) = 1; the primary ray direction `render` computes
differs from normalize(((2(i+0.5)/1024 − 1)·(1024/768), −(2(j+0.5)/768 − 1), −1))
at every pixel. -/
theorem render_fov_truncated :
    fov = 1 ∧ Real.tan ((fov : ℝ) / 2) < 1 ∧
      ∀ i j : ℕ, render_dir Real.sqrt Real.tan i j ≠ spec_dir Real.sqrt i j := by
  have ht0 := tan_half_pos
  have ht1 := tan_half_lt_one
  refine ⟨fov_eq, by rw [fov_eq]; simpa using ht1, ?_⟩
  intro i j
  unfold render_dir spec_dir
  apply normalize_z_ne
  simp only [render_x, render_y, fov_eq, width, height, Int.cast_one, Nat.cast_ofNat]
  generalize Real.tan (1 / 2) = t at ht0 ht1
  have ht2 : t * t < 1 := by nlinarith
  have hy : (2 * ((j : ℝ) + 1 / 2) / 768 - 1) ≠ 0 := by
    intro h0
    have h1 : (2 * (j : ℝ) + 1) = 768 := by
      field_simp at h0
      linarith
    have h2 : 2 * j + 1 = 768 := by exact_mod_cast h1
    omega
  have hy2 : 0 < (2 * ((j : ℝ) + 1 / 2) / 768 - 1) * (2 * ((j : ℝ) + 1 / 2) / 768 - 1) :=
    mul_self_pos.mpr hy
  generalize (2 * ((j : ℝ) + 1 / 2) / 768 - 1) = Y at hy2
  generalize (2 * ((i : ℝ) + 1 / 2) / 1024 - 1) = X
  have e1 : X * t * 1024 / 768 * (X * t * 1024 / 768) + -Y * t * (-Y * t)
      = (X * (1024 / 768) * (X * (1024 / 768)) + Y * Y) * (t * t) := by ring
  have e2 : X * (1024 / 768) * (X * (1024 / 768)) + -Y * -Y
      = X * (1024 / 768) * (X * (1024 / 768)) + Y * Y := by ring
  rw [e1, e2]
  have hpos : 0 < X * (1024 / 768) * (X * (1024 / 768)) + Y * Y := by
    nlinarith [mul_self_nonneg (X * (1024 / 768))]
  nlinarith

/-! ## render: quantisation -/

section Quantise

variable {β : Type} [LinearOrderedField β]

theorem clamp_bounds (v : β) : 0 ≤ 255 * max 0 (min 1 v) ∧ 255 * max 0 (min 1 v) ≤ 255 := by
  have h0 : (0 : β) ≤ max 0 (min 1 v) := le_max_left _ _
  have h1 : max 0 (min 1 v) ≤ (1 : β) := max_le (by norm_num) (min_le_left _ _)
  constructor <;> nlinarith

/-- The byte written is the integer part of 255 · clamp(v, 0, 1). -/
theorem quantise_eq_floor [FloorRing β] (v : β) :
    (quantise v : ℤ) = ⌊255 * max 0 (min 1 v)⌋ ∧ quantise v ≤ 255 := by
  obtain ⟨h0, h1⟩ := clamp_bounds v
  have hf0 : 0 ≤ ⌊255 * max 0 (min 1 v)⌋ := Int.floor_nonneg.mpr h0
  have hf1 : ⌊255 * max 0 (min 1 v)⌋ ≤ 255 := by
    have : ⌊255 * max 0 (min 1 v)⌋ ≤ ⌊(255 : β)⌋ := Int.floor_mono h1
    have e : ⌊(255 : β)⌋ = 255 := by
      rw [Int.floor_eq_iff]
      norm_num
    rwa [e] at this
  unfold quantise trunc
  rw [if_pos h0]
  generalize ⌊255 * max 0 (min 1 v)⌋ = n at hf0 hf1
  omega

theorem floor_eq_round_iff [FloorRing β] (x : β) :
    ⌊x⌋ = round x ↔ Int.fract x < 1 / 2 := by
  rw [round_eq, eq_comm, Int.floor_eq_iff]
  have h1 := Int.floor_le x
  have h2 := Int.self_sub_floor x
  constructor
  · rintro ⟨-, h⟩
    linarith
  · intro h
    constructor <;> linarith

/-- C12, amended: for every colour channel value v, the byte `render` writes
equals the integer part ⌊255 · clamp(v, 0, 1)⌋ (the cast truncates), which
is a value in 0..255; it is the nearest integer round(255 · clamp(v, 0, 1))
exactly when the fractional part of 255 · clamp(v, 0, 1) is below 1/2. -/
theorem quantise_floor [FloorRing β] (v : β) :
    (quantise v : ℤ) = ⌊255 * max 0 (min 1 v)⌋ ∧ quantise v ≤ 255 ∧
      ((quantise v : ℤ) = round (255 * max 0 (min 1 v)) ↔
        Int.fract (255 * max 0 (min 1 v)) < 1 / 2) := by
  obtain ⟨h1, h2⟩ := quantise_eq_floor v
  refine ⟨h1, h2, ?_⟩
  rw [h1]
  exact floor_eq_round_iff _

/-- C12, as stated, fails: for the channel value 0.999 the byte written is
254, while 255 · 0.999 = 254.745 rounds to 255. -/
theorem quantise_truncates :
    quantise (999 / 1000 : ℝ) = 254 ∧
      round (255 * max 0 (min 1 (999 / 1000 : ℝ))) = 255 := by
  have hc : (255 : ℝ) * max 0 (min 1 (999 / 1000 : ℝ)) = 254745 / 1000 := by
    rw [min_eq_right (by norm_num), max_eq_right (by norm_num)]
    norm_num
  constructor
  · have h := (quantise_eq_floor (999 / 1000 : ℝ)).1
    rw [hc] at h
    have hf : ⌊(254745 / 1000 : ℝ)⌋ = 254 := by
      rw [Int.floor_eq_iff]
      norm_num
    rw [hf] at h
    exact_mod_cast h
  · rw [hc, round_eq, Int.floor_eq_iff]
    norm_num

end Quantise

/-! ## A ray aimed at the centre of a sphere -/

theorem Vec3f.ext_iff3 {a b : Vec3f ℝ} : a = b ↔ a.x = b.x ∧ a.y = b.y ∧ a.z = b.z := by
  cases a
  cases b
  simp

theorem Vec3f.normalize_facts (v : Vec3f ℝ) (hv : 0 < v.dot v) :
    0 < v.norm Real.sqrt ∧
      v.norm Real.sqrt * v.norm Real.sqrt = v.dot v ∧
      (v.normalize Real.sqrt).dot (v.normalize Real.sqrt) = 1 ∧
      (v.normalize Real.sqrt).dot v = v.norm Real.sqrt ∧
      (v.normalize Real.sqrt).norm Real.sqrt = 1 := by
  have hn : 0 < v.norm Real.sqrt := by
    rw [Vec3f.norm_eq]
    exact Real.sqrt_pos.mpr hv
  have hsq : v.norm Real.sqrt * v.norm Real.sqrt = v.dot v := by
    rw [Vec3f.norm_eq]
    exact Real.mul_self_sqrt hv.le
  have h1 : (v.normalize Real.sqrt).dot (v.normalize Real.sqrt) = 1 := by
    unfold Vec3f.normalize
    generalize v.norm Real.sqrt = n at hn hsq
    have hne : n ≠ 0 := hn.ne.symm
    unfold Vec3f.dot at hsq
    simp only [Vec3f.scale, Vec3f.dot]
    field_simp
    linarith
  have h2 : (v.normalize Real.sqrt).dot v = v.norm Real.sqrt := by
    unfold Vec3f.normalize
    generalize v.norm Real.sqrt = n at hn hsq
    have hne : n ≠ 0 := hn.ne.symm
    unfold Vec3f.dot at hsq
    simp only [Vec3f.scale, Vec3f.dot]
    field_simp
    linarith
  refine ⟨hn, hsq, h1, h2, ?_⟩
  rw [Vec3f.norm_eq_iff _ _ (by norm_num), h1]
  norm_num

theorem Vec3f.dot_scale_self (d : Vec3f ℝ) (k : ℝ) :
    (d.scale k).dot (d.scale k) = k * k * d.dot d := by
  simp only [Vec3f.scale, Vec3f.dot]
  ring

/-- C13: for a sphere of centre c and radius r > 0 and an origin p strictly
outside it, the ray from p with direction d = (c − p)/|c − p| reports a hit
with t = |c − p| − r, and `Sphere::normal` at the hit point p + t·d is −d,
a unit vector. -/
theorem Sphere.ray_intersect_towards_centre (s : Sphere ℝ) (p : Vec3f ℝ) (t0 : ℝ)
    (hr : 0 < s.r) (hout : s.r < (s.c - p).norm Real.sqrt) :
    s.ray_intersect Real.sqrt p ((s.c - p).normalize Real.sqrt) t0
        = (true, (s.c - p).norm Real.sqrt - s.r) ∧
      s.normal Real.sqrt
          (p + ((s.c - p).normalize Real.sqrt).scale ((s.c - p).norm Real.sqrt - s.r))
        = ((s.c - p).normalize Real.sqrt).scale (-1) ∧
      (((s.c - p).normalize Real.sqrt).scale (-1)).norm Real.sqrt = 1 := by
  have hV : 0 < (s.c - p).dot (s.c - p) := by
    have := (Vec3f.lt_norm_iff _ _ hr.le).mp hout
    nlinarith [mul_pos hr hr]
  obtain ⟨hn, hsq, hdd, hdv, hd1⟩ := Vec3f.normalize_facts (s.c - p) hV
  refine ⟨?_, ?_, ?_⟩
  · rw [Sphere.ray_intersect_unit s p _ t0 hd1, hdv, ← hsq]
    generalize (s.c - p).norm Real.sqrt = n at hn hout
    have e : n * n - n * n = 0 := by ring
    rw [if_neg (not_lt.mpr hn.le), e, if_neg (by nlinarith [mul_pos hr hr]),
      if_pos (by nlinarith), sub_zero, Real.sqrt_mul_self hr.le]
  · have hw : p + ((s.c - p).normalize Real.sqrt).scale ((s.c - p).norm Real.sqrt - s.r) - s.c
        = ((s.c - p).normalize Real.sqrt).scale (-s.r) := by
      unfold Vec3f.normalize
      generalize (s.c - p).norm Real.sqrt = n at hn
      have hne : n ≠ 0 := hn.ne.symm
      rw [Vec3f.ext_iff3]
      simp only [Vec3f.add_def, Vec3f.sub_def, Vec3f.scale]
      refine ⟨?_, ?_, ?_⟩ <;> field_simp <;> ring
    unfold Sphere.normal
    rw [hw]
    have hnw : (((s.c - p).normalize Real.sqrt).scale (-s.r)).norm Real.sqrt = s.r := by
      rw [Vec3f.norm_eq_iff _ _ hr.le, Vec3f.dot_scale_self, hdd]
      ring
    generalize (s.c - p).normalize Real.sqrt = d at hnw
    unfold Vec3f.normalize
    rw [hnw, Vec3f.ext_iff3]
    have hne : s.r ≠ 0 := hr.ne.symm
    simp only [Vec3f.scale]
    refine ⟨?_, ?_, ?_⟩ <;> field_simp
  · rw [Vec3f.norm_eq_iff _ _ (by norm_num), Vec3f.dot_scale_self, hdd]
    norm_num

/-- The sphere of centre (0, 0, 0) and radius 2 seen from (0, 0, 5): the
direction is (0, 0, −1), t = 3, and the normal at the hit point is
(0, 0, 1). -/
theorem Sphere.ray_intersect_towards_centre_witness :
    (⟨Material.default, ⟨0, 0, 0⟩, 2⟩ : Sphere ℝ).ray_intersect Real.sqrt
        ⟨0, 0, 5⟩ ⟨0, 0, -1⟩ 0 = (true, 3) ∧
      (⟨Material.default, ⟨0, 0, 0⟩, 2⟩ : Sphere ℝ).normal Real.sqrt ⟨0, 0, 2⟩ = ⟨0, 0, 1⟩ := by
  have hn : ((⟨0, 0, 0⟩ : Vec3f ℝ) - ⟨0, 0, 5⟩).norm Real.sqrt = 5 := by
    rw [Vec3f.norm_eq_iff _ _ (by norm_num)]
    norm_num [Vec3f.dot, Vec3f.sub_def]
  have hd : ((⟨0, 0, 0⟩ : Vec3f ℝ) - ⟨0, 0, 5⟩).normalize Real.sqrt = ⟨0, 0, -1⟩ := by
    unfold Vec3f.normalize
    rw [hn]
    norm_num [Vec3f.sub_def, Vec3f.scale]
  have h := Sphere.ray_intersect_towards_centre ⟨Material.default, ⟨0, 0, 0⟩, 2⟩ ⟨0, 0, 5⟩ 0
    (by norm_num) (by rw [hn]; norm_num)
  simp only [hd, hn] at h
  norm_num [Vec3f.add_def, Vec3f.scale] at h
  exact ⟨h.1, h.2.1⟩

/-! ## A horizontal ray aimed at the axis of a cylinder -/

/-- Away from the base centre, `Cylinder::normal` is a positive multiple of
the horizontal offset from the axis. -/
theorem Cylinder.normal_radial (cy : Cylinder ℝ) (q : Vec3f ℝ)
    (hq : 0 < (q - cy.centar).dot (q - cy.centar)) :
    (cy.normal Real.sqrt q).y = 0 ∧
      ∃ k : ℝ, 0 < k ∧ (cy.normal Real.sqrt q).x = k * (q.x - cy.centar.x) ∧
        (cy.normal Real.sqrt q).z = k * (q.z - cy.centar.z) := by
  have hn : 0 < (q - cy.centar).norm Real.sqrt := by
    rw [Vec3f.norm_eq]
    exact Real.sqrt_pos.mpr hq
  refine ⟨rfl, 1 / (q - cy.centar).norm Real.sqrt, one_div_pos.mpr hn, ?_, ?_⟩
  · simp only [Cylinder.normal, Vec3f.normalize, Vec3f.scale, Vec3f.sub_def]
    ring
  · simp only [Cylinder.normal, Vec3f.normalize, Vec3f.scale, Vec3f.sub_def]
    ring

/-- C14: for a cylinder of base centre c, radius r > 0 and height h > 0 and
an origin p with p.y = c.y + h/2 whose horizontal distance rho from the axis
exceeds r, the horizontal unit direction d aimed at the axis reports a hit
with t = rho − r, and `Cylinder::normal` at the hit point q = p + t·d has Y
component 0 and (x, z) components that are a positive multiple of
(q.x − c.x, q.z − c.z). -/
theorem Cylinder.ray_intersect_towards_axis (cy : Cylinder ℝ) (p d : Vec3f ℝ) (t0 rho : ℝ)
    (hr : 0 < cy.r) (hh : 0 < cy.h) (hy : p.y = cy.centar.y + cy.h / 2)
    (hrho : rho = Real.sqrt ((p.x - cy.centar.x) ^ 2 + (p.z - cy.centar.z) ^ 2))
    (hlt : cy.r < rho)
    (hdx : d.x = (cy.centar.x - p.x) / rho) (hdy : d.y = 0)
    (hdz : d.z = (cy.centar.z - p.z) / rho) :
    d.norm Real.sqrt = 1 ∧
      cy.ray_intersect Real.sqrt p d t0 = (true, rho - cy.r) ∧
      (cy.normal Real.sqrt (p + d.scale (rho - cy.r))).y = 0 ∧
      ∃ k : ℝ, 0 < k ∧
        (cy.normal Real.sqrt (p + d.scale (rho - cy.r))).x
          = k * ((p + d.scale (rho - cy.r)).x - cy.centar.x) ∧
        (cy.normal Real.sqrt (p + d.scale (rho - cy.r))).z
          = k * ((p + d.scale (rho - cy.r)).z - cy.centar.z) := by
  have hrho0 : 0 < rho := lt_trans hr hlt
  have hne : rho ≠ 0 := hrho0.ne.symm
  have hsq : rho * rho = (p.x - cy.centar.x) ^ 2 + (p.z - cy.centar.z) ^ 2 := by
    rw [hrho]
    exact Real.mul_self_sqrt (by positivity)
  have hdd : d.x * d.x + d.z * d.z = 1 := by
    rw [hdx, hdz]
    field_simp
    nlinarith
  have hd1 : d.norm Real.sqrt = 1 := by
    rw [Vec3f.norm_eq_iff _ _ (by norm_num)]
    unfold Vec3f.dot
    rw [hdy]
    linarith
  have hv : d.dot (cy.centar - p) = rho := by
    simp only [Vec3f.dot, Vec3f.sub_def, hdx, hdy, hdz]
    field_simp
    nlinarith
  have ha : Cylinder.quad_a d = 1 := hdd
  have hb : cy.quad_b p d = -(2 * rho) := by
    simp only [Cylinder.quad_b, hdx, hdz]
    field_simp
    nlinarith
  have hc : cy.quad_c p = rho * rho - cy.r * cy.r := by
    unfold Cylinder.quad_c
    rw [hsq]
    ring
  have hD : cy.disc p d = (2 * cy.r) * (2 * cy.r) := by
    unfold Cylinder.disc
    rw [ha, hb, hc]
    ring
  have ht : cy.chosen_t Real.sqrt p d = rho - cy.r := by
    rw [Cylinder.chosen_t_eq cy p d (by rw [ha]; norm_num), hD, hb, ha,
      Real.sqrt_mul_self (by linarith)]
    ring
  refine ⟨hd1, ?_, ?_⟩
  · rw [Cylinder.ray_intersect_eq, ht, hv, hD, hdy]
    rw [if_neg (not_lt.mpr hrho0.le), if_neg (not_lt.mpr (mul_self_nonneg _)),
      if_pos (by constructor <;> linarith)]
    have : rho - cy.r ≠ 0 := by linarith
    simp [this]
  · apply Cylinder.normal_radial
    have : ((p + d.scale (rho - cy.r)) - cy.centar).y = cy.h / 2 := by
      simp only [Vec3f.add_def, Vec3f.sub_def, Vec3f.scale, hdy, hy]
      ring
    generalize (p + d.scale (rho - cy.r)) - cy.centar = w at this
    unfold Vec3f.dot
    rw [this]
    have h1 := mul_self_nonneg w.x
    have h2 := mul_self_nonneg w.z
    have h3 : 0 < cy.h / 2 * (cy.h / 2) := by positivity
    linarith

/-- The cylinder of base centre (0, 0, 0), radius 1 and height 2 seen from
(−3, 1, 0) along (1, 0, 0): rho = 3 and t = 2. -/
theorem Cylinder.ray_intersect_towards_axis_witness :
    (⟨Material.default, ⟨0, 0, 0⟩, 1, 2⟩ : Cylinder ℝ).ray_intersect Real.sqrt
      ⟨-3, 1, 0⟩ ⟨1, 0, 0⟩ 0 = (true, 3 - 1) :=
  (Cylinder.ray_intersect_towards_axis ⟨Material.default, ⟨0, 0, 0⟩, 1, 2⟩ ⟨-3, 1, 0⟩
    ⟨1, 0, 0⟩ 0 3 (by norm_num) (by norm_num) (by norm_num)
    (sqrt_eval _ 3 (by norm_num) (by norm_num)).symm (by norm_num) (by norm_num) rfl
    (by norm_num)).2.1

/-! ## cast_ray: the dominant channel of a red material -/

section Dominant
variable {α : Type} [LinearOrderedField α]

theorem light_step_diffuse_le (sqrt : α → α) (powf : α → α → α) (orig : Vec3f α)
    (objs : List (Object α)) (hit n : Vec3f α) (m : Material α) (acc : α × α) (l : Light α)
    (hI : 0 ≤ l.intensity) :
    acc.1 ≤ (light_step sqrt powf orig objs hit n m acc l).1 := by
  unfold light_step
  by_cases h : in_shadow sqrt objs hit n l = true
  · simp only [h, if_true]
    exact le_refl _
  · simp only [h, Bool.false_eq_true, if_false]
    have := mul_nonneg hI (le_max_left 0 (((l.position - hit).normalize sqrt).dot n))
    linarith

theorem light_step_diffuse_lt (sqrt : α → α) (powf : α → α → α) (orig : Vec3f α)
    (objs : List (Object α)) (hit n : Vec3f α) (m : Material α) (acc : α × α) (l : Light α)
    (hs : in_shadow sqrt objs hit n l = false) (hI : 0 < l.intensity)
    (hd : 0 < ((l.position - hit).normalize sqrt).dot n) :
    acc.1 < (light_step sqrt powf orig objs hit n m acc l).1 := by
  unfold light_step
  simp only [hs, Bool.false_eq_true, if_false]
  have := mul_pos hI (lt_max_of_lt_right hd : 0 < max 0 (((l.position - hit).normalize sqrt).dot n))
  linarith

theorem foldl_light_step_diffuse (sqrt : α → α) (powf : α → α → α) (orig : Vec3f α)
    (objs : List (Object α)) (hit n : Vec3f α) (m : Material α) (lights : List (Light α))
    (hI : ∀ l ∈ lights, 0 ≤ l.intensity) :
    ∀ acc : α × α,
      acc.1 ≤ (lights.foldl (light_step sqrt powf orig objs hit n m) acc).1 ∧
      ((∃ l ∈ lights, in_shadow sqrt objs hit n l = false ∧ 0 < l.intensity ∧
          0 < ((l.position - hit).normalize sqrt).dot n) →
        acc.1 < (lights.foldl (light_step sqrt powf orig objs hit n m) acc).1) := by
  induction lights with
  | nil =>
    intro acc
    refine ⟨le_refl _, ?_⟩
    rintro ⟨l, hl, -⟩
    simp at hl
  | cons l ls ih =>
    intro acc
    have hIl : 0 ≤ l.intensity := hI l (List.mem_cons_self _ _)
    have hIls : ∀ l1 ∈ ls, 0 ≤ l1.intensity := fun l1 h1 => hI l1 (List.mem_cons_of_mem _ h1)
    have hstep := light_step_diffuse_le sqrt powf orig objs hit n m acc l hIl
    obtain ⟨hle, hlt⟩ := ih hIls (light_step sqrt powf orig objs hit n m acc l)
    rw [List.foldl_cons]
    refine ⟨le_trans hstep hle, ?_⟩
    rintro ⟨l1, hl1, hs, hpos, hd⟩
    rcases List.mem_cons.mp hl1 with e | hmem
    · subst e
      exact lt_of_lt_of_le (light_step_diffuse_lt sqrt powf orig objs hit n m acc l1 hs hpos hd)
        hle
    · exact lt_of_le_of_lt hstep (hlt ⟨l1, hmem, hs, hpos, hd⟩)

/-- C15: for a hit on a material with diffuse_color = (1, 0, 0) and
albedo[0] > 0, under lights that all have intensity ≥ 0 and of which at
least one passes the shadow test with intensity > 0 and
light_dir · normal > 0, the colour `cast_ray` returns has R > G, R > B and
G = B. -/
theorem cast_ray_red_dominant (sqrt : α → α) (powf : α → α → α) (orig dir : Vec3f α)
    (objs : List (Object α)) (lights : List (Light α))
    (hhit : (scene_intersect sqrt orig dir objs Vec3f.zero Material.default Vec3f.zero).found
      = true)
    (hcol : (scene_intersect sqrt orig dir objs Vec3f.zero Material.default
      Vec3f.zero).material.diffuse_color = ⟨1, 0, 0⟩)
    (halb : 0 < (scene_intersect sqrt orig dir objs Vec3f.zero Material.default
      Vec3f.zero).material.albedo.x)
    (hI : ∀ l ∈ lights, 0 ≤ l.intensity)
    (hlit : ∃ l ∈ lights,
      in_shadow sqrt objs
        (scene_intersect sqrt orig dir objs Vec3f.zero Material.default Vec3f.zero).hit
        (scene_intersect sqrt orig dir objs Vec3f.zero Material.default Vec3f.zero).N l = false ∧
      0 < l.intensity ∧
      0 < ((l.position
        - (scene_intersect sqrt orig dir objs Vec3f.zero Material.default Vec3f.zero).hit
        ).normalize sqrt).dot
        (scene_intersect sqrt orig dir objs Vec3f.zero Material.default Vec3f.zero).N) :
    (cast_ray sqrt powf orig dir objs lights).y < (cast_ray sqrt powf orig dir objs lights).x ∧
      (cast_ray sqrt powf orig dir objs lights).z < (cast_ray sqrt powf orig dir objs lights).x ∧
      (cast_ray sqrt powf orig dir objs lights).y = (cast_ray sqrt powf orig dir objs lights).z := by
  rw [cast_ray_of_found sqrt powf orig dir objs lights hhit]
  generalize scene_intersect sqrt orig dir objs Vec3f.zero Material.default Vec3f.zero = sc
    at hcol halb hlit
  have hD := (foldl_light_step_diffuse sqrt powf orig objs sc.hit sc.N sc.material lights hI
    (0, 0)).2 hlit
  unfold light_loop
  generalize lights.foldl (light_step sqrt powf orig objs sc.hit sc.N sc.material) (0, 0) = acc
    at hD
  simp only [diffuse_part, specular_part, Vec3f.add_def, Vec3f.scale, hcol]
  have := mul_pos halb hD
  refine ⟨?_, ?_, ?_⟩
  · simp only [one_mul, zero_mul, zero_add]
    linarith
  · simp only [one_mul, zero_mul, zero_add]
    linarith
  · simp only [zero_mul, zero_add]

end Dominant

/-- The example scene lit by the light at (0, 0, 5). -/
theorem cast_ray_red_dominant_witness :
    (cast_ray Real.sqrt Real.rpow ⟨0, 0, 0⟩ ⟨0, 0, -1⟩ (ex_objs : List (Object ℝ))
        [ex_near_light]).y
      < (cast_ray Real.sqrt Real.rpow ⟨0, 0, 0⟩ ⟨0, 0, -1⟩ (ex_objs : List (Object ℝ))
        [ex_near_light]).x :=
  (cast_ray_red_dominant Real.sqrt Real.rpow ⟨0, 0, 0⟩ ⟨0, 0, -1⟩ (ex_objs : List (Object ℝ))
    [ex_near_light]
    (by rw [ex_scene_primary])
    (by rw [ex_scene_primary]; rfl)
    (by rw [ex_scene_primary]; norm_num [ex_red])
    (by intro l hl; rw [List.mem_singleton.mp hl]; norm_num [ex_near_light])
    ⟨ex_near_light, List.mem_singleton.mpr rfl, by
      rw [ex_scene_primary]
      refine ⟨ex_near_light_not_in_shadow, by norm_num [ex_near_light], ?_⟩
      have := ex_near_light_dir
      simp only [ex_near_light, this]
      norm_num [Vec3f.dot]⟩).1

/-! ## render: the framebuffer index -/

theorem row_writes (b n : ℕ) (acc : List ℕ) :
    (List.range n).foldl (fun acc1 i => acc1 ++ [i + b]) acc
      = acc ++ (List.range n).map (fun i => b + i) := by
  induction n with
  | zero => simp
  | succ n ih =>
    rw [List.range_succ, List.foldl_append, ih]
    simp [Nat.add_comm]

theorem loop_writes_eq (W H : ℕ) : loop_writes W H = List.range (W * H) := by
  unfold loop_writes
  induction H with
  | zero => simp
  | succ H ih =>
    rw [List.range_succ, List.foldl_append, ih]
    simp only [List.foldl_cons, List.foldl_nil]
    rw [row_writes, Nat.mul_comm H W, Nat.mul_succ, List.range_add]

/-- C16: with W = 1024 and H = 768, the index i + j·W at which `render`
stores pixel (i, j) is below W·H for i < W, j < H; the map (i, j) ↦ i + j·W
is injective on the pixel grid and onto the indices 0..W·H − 1; and the pixel
loop stores at the indices 0, 1, ..., W·H − 1 in this order, each exactly
once. -/
theorem render_index_bijective :
    (∀ i j, i < width → j < height → pixel_index i j < width * height) ∧
      (∀ i j i1 j1, i < width → j < height → i1 < width → j1 < height →
        pixel_index i j = pixel_index i1 j1 → i = i1 ∧ j = j1) ∧
      (∀ k, k < width * height → ∃ i j, i < width ∧ j < height ∧ pixel_index i j = k) ∧
      render_writes = List.range (width * height) ∧
      (∀ k, k < width * height → render_writes.count k = 1) := by
  have hw : render_writes = List.range (width * height) := loop_writes_eq width height
  refine ⟨?_, ?_, ?_, hw, ?_⟩
  · intro i j hi hj
    unfold pixel_index width height at *
    omega
  · intro i j i1 j1 hi hj hi1 hj1 h
    unfold pixel_index width height at *
    omega
  · intro k hk
    refine ⟨k % width, k / width, ?_, ?_, ?_⟩
    · unfold width; omega
    · unfold width height at *; omega
    · unfold pixel_index width; omega
  · intro k hk
    rw [hw]
    exact List.count_eq_one_of_mem (List.nodup_range _) (List.mem_range.mpr hk)

/-- The last pixel is stored at an index inside the framebuffer. -/
theorem render_index_bijective_witness : pixel_index 1023 767 < width * height :=
  render_index_bijective.1 1023 767 (by decide) (by decide)

/-! ## scene_intersect and the order of the primitives -/

section Perm
variable {α : Type} [LinearOrderedField α]

theorem scene_loop_perm (sqrt : α → α) (orig dir : Vec3f α) (objs objs1 : List (Object α))
    (h0 : Vec3f α) (m0 : Material α) (n0 : Vec3f α) (hp : objs.Perm objs1) :
    (scene_loop sqrt orig dir objs h0 m0 n0).dist = (scene_loop sqrt orig dir objs1 h0 m0 n0).dist ∧
      (scene_loop sqrt orig dir objs h0 m0 n0).hit
        = (scene_loop sqrt orig dir objs1 h0 m0 n0).hit ∧
      ((∀ o1 ∈ objs, ∀ o2 ∈ objs, ∀ t, o1.hit_distance sqrt orig dir = some t →
          o2.hit_distance sqrt orig dir = some t →
          (∀ o ∈ objs, ∀ t1, o.hit_distance sqrt orig dir = some t1 → t ≤ t1) → o1 = o2) →
        (scene_loop sqrt orig dir objs h0 m0 n0).N = (scene_loop sqrt orig dir objs1 h0 m0 n0).N ∧
        (scene_loop sqrt orig dir objs h0 m0 n0).material
          = (scene_loop sqrt orig dir objs1 h0 m0 n0).material) := by
  obtain ⟨hmin, hcase⟩ := scene_loop_inv sqrt orig dir h0 m0 n0 objs
  obtain ⟨hmin1, hcase1⟩ := scene_loop_inv sqrt orig dir h0 m0 n0 objs1
  generalize scene_loop sqrt orig dir objs h0 m0 n0 = st at hmin hcase
  generalize scene_loop sqrt orig dir objs1 h0 m0 n0 = st1 at hmin1 hcase1
  rcases hcase with ⟨e, hh, hm, hn⟩ | ⟨l1, o, l2, e, ho, hlt, -, hh, hn, hm⟩
  · rcases hcase1 with ⟨e1, hh1, hm1, hn1⟩ | ⟨k1, o1, k2, e1, ho1, hlt1, -, -, -, -⟩
    · exact ⟨by rw [e, e1], by rw [hh, hh1], fun _ => ⟨by rw [hn, hn1], by rw [hm, hm1]⟩⟩
    · have hmem : o1 ∈ objs := hp.mem_iff.mpr (by rw [e1]; simp)
      have := hmin o1 hmem _ ho1
      rw [e] at this
      exact absurd hlt1 (not_lt.mpr this)
  · have hmem : o ∈ objs := by rw [e]; simp
    rcases hcase1 with ⟨e1, -, -, -⟩ | ⟨k1, o1, k2, e1, ho1, hlt1, -, hh1, hn1, hm1⟩
    · have := hmin1 o (hp.mem_iff.mp hmem) _ ho
      rw [e1] at this
      exact absurd hlt (not_lt.mpr this)
    · have hmem1 : o1 ∈ objs := hp.mem_iff.mpr (by rw [e1]; simp)
      have hd : st.dist = st1.dist :=
        le_antisymm (hmin o1 hmem1 _ ho1) (hmin1 o (hp.mem_iff.mp hmem) _ ho)
      have hhit : st.hit = st1.hit := by rw [hh, hh1, hd]
      refine ⟨hd, hhit, ?_⟩
      intro huniq
      have hoo : o = o1 := huniq o hmem o1 hmem1 st.dist ho (hd ▸ ho1) hmin
      rw [hn, hn1, hm, hm1, hhit, hoo]
      exact ⟨rfl, rfl⟩

/-- C17, amended: for every ray and every list of primitives,
`scene_intersect` returns the same hit/no-hit answer and the same hit point
for every permutation of the list; the normal and the material are the same
too when no two different primitives report the least distance. -/
theorem scene_intersect_perm (sqrt : α → α) (orig dir : Vec3f α) (objs objs1 : List (Object α))
    (h0 : Vec3f α) (m0 : Material α) (n0 : Vec3f α) (hp : objs.Perm objs1) :
    (scene_intersect sqrt orig dir objs h0 m0 n0).found
        = (scene_intersect sqrt orig dir objs1 h0 m0 n0).found ∧
      (scene_intersect sqrt orig dir objs h0 m0 n0).hit
        = (scene_intersect sqrt orig dir objs1 h0 m0 n0).hit ∧
      ((∀ o1 ∈ objs, ∀ o2 ∈ objs, ∀ t, o1.hit_distance sqrt orig dir = some t →
          o2.hit_distance sqrt orig dir = some t →
          (∀ o ∈ objs, ∀ t1, o.hit_distance sqrt orig dir = some t1 → t ≤ t1) → o1 = o2) →
        (scene_intersect sqrt orig dir objs h0 m0 n0).N
          = (scene_intersect sqrt orig dir objs1 h0 m0 n0).N ∧
        (scene_intersect sqrt orig dir objs h0 m0 n0).material
          = (scene_intersect sqrt orig dir objs1 h0 m0 n0).material) := by
  obtain ⟨hd, hh, hrest⟩ := scene_loop_perm sqrt orig dir objs objs1 h0 m0 n0 hp
  unfold scene_intersect
  simp only
  exact ⟨by rw [hd], hh, hrest⟩

end Perm

theorem ex_twin_primary (t0 : ℝ) :
    (ex_twin : Sphere ℝ).ray_intersect Real.sqrt ⟨0, 0, 0⟩ ⟨0, 0, -1⟩ t0 = (true, 2) := by
  rw [Sphere.ray_intersect_unit _ _ _ _ (by norm_num [Vec3f.norm])]
  norm_num [ex_twin, Vec3f.dot, Vec3f.sub_def]

/-- C17, as stated, fails: two spheres with the same centre and radius and
different materials report the same distance 2; listed as (red, default)
the material returned is the red one, listed as (default, red) it is the
default one. -/
theorem scene_intersect_order_counterexample :
    List.Perm [Object.sphere (ex_near : Sphere ℝ), Object.sphere ex_twin]
        [Object.sphere ex_twin, Object.sphere ex_near] ∧
      (scene_intersect Real.sqrt ⟨0, 0, 0⟩ ⟨0, 0, -1⟩
        [Object.sphere (ex_near : Sphere ℝ), Object.sphere ex_twin]
        Vec3f.zero Material.default Vec3f.zero).found = true ∧
      (scene_intersect Real.sqrt ⟨0, 0, 0⟩ ⟨0, 0, -1⟩
        [Object.sphere (ex_near : Sphere ℝ), Object.sphere ex_twin]
        Vec3f.zero Material.default Vec3f.zero).material = ex_red ∧
      (scene_intersect Real.sqrt ⟨0, 0, 0⟩ ⟨0, 0, -1⟩
        [Object.sphere (ex_twin : Sphere ℝ), Object.sphere ex_near]
        Vec3f.zero Material.default Vec3f.zero).material = Material.default ∧
      (ex_red : Material ℝ) ≠ Material.default := by
  have hlt : (2 : ℝ) < FLT_MAX := by unfold FLT_MAX; norm_num
  refine ⟨List.Perm.swap _ _ _, ?_, ?_, ?_, ?_⟩
  · simp only [scene_intersect, scene_loop, List.foldl, scene_step, Object.ray_intersect,
      ex_near_primary, ex_twin_primary, hlt, and_self, if_true, lt_self_iff_false, and_false,
      if_false]
    norm_num
  · simp only [scene_intersect, scene_loop, List.foldl, scene_step, Object.ray_intersect,
      ex_near_primary, ex_twin_primary, hlt, and_self, if_true, lt_self_iff_false, and_false,
      if_false, Object.material]
    rfl
  · simp only [scene_intersect, scene_loop, List.foldl, scene_step, Object.ray_intersect,
      ex_near_primary, ex_twin_primary, hlt, and_self, if_true, lt_self_iff_false, and_false,
      if_false, Object.material]
    rfl
  · intro h
    have := congrArg (fun m => m.diffuse_color.x) h
    simp [ex_red, Material.default, Vec3f.zero] at this

/-- The two coincident spheres in either order. -/
theorem scene_intersect_perm_witness :
    (scene_intersect Real.sqrt ⟨0, 0, 0⟩ ⟨0, 0, -1⟩
        [Object.sphere (ex_near : Sphere ℝ), Object.sphere ex_twin]
        Vec3f.zero Material.default Vec3f.zero).found
      = (scene_intersect Real.sqrt ⟨0, 0, 0⟩ ⟨0, 0, -1⟩
        [Object.sphere (ex_twin : Sphere ℝ), Object.sphere ex_near]
        Vec3f.zero Material.default Vec3f.zero).found :=
  (scene_intersect_perm Real.sqrt ⟨0, 0, 0⟩ ⟨0, 0, -1⟩
    [Object.sphere (ex_near : Sphere ℝ), Object.sphere ex_twin]
    [Object.sphere ex_twin, Object.sphere ex_near]
    Vec3f.zero Material.default Vec3f.zero (List.Perm.swap _ _ _)).1

/-! ## A direction that is not normalised; the length of the cylinder normal -/

/-- C18: a direction that is not normalised yields a wrong t: for the sphere
of centre (0, 0, −3) and radius 5, the origin (0, 0, 0) and the direction
(0, 0, −2) of length 2, `Sphere::ray_intersect` returns true with t = 10, and
the point p + t·d = (0, 0, −20) is at distance 17 from the centre, not 5. -/
theorem Sphere.ray_intersect_not_normalised :
    ∃ (s : Sphere ℝ) (p d : Vec3f ℝ) (t0 : ℝ),
      0 < s.r ∧ d.norm Real.sqrt ≠ 1 ∧
        (s.ray_intersect Real.sqrt p d t0).1 = true ∧
        (p + d.scale (s.ray_intersect Real.sqrt p d t0).2 - s.c).norm Real.sqrt ≠ s.r := by
  have h4 : Real.sqrt 4 = 2 := sqrt_eval 4 2 (by norm_num) (by norm_num)
  have h16 : Real.sqrt 16 = 4 := sqrt_eval 16 4 (by norm_num) (by norm_num)
  have h36 : Real.sqrt 36 = 6 := sqrt_eval 36 6 (by norm_num) (by norm_num)
  have h289 : Real.sqrt 289 = 17 := sqrt_eval 289 17 (by norm_num) (by norm_num)
  have hres : (⟨Material.default, ⟨0, 0, -3⟩, 5⟩ : Sphere ℝ).ray_intersect Real.sqrt
      ⟨0, 0, 0⟩ ⟨0, 0, -2⟩ 0 = (true, 10) := by
    norm_num [Sphere.ray_intersect, Vec3f.dot, Vec3f.sub_def, Vec3f.add_def, Vec3f.scale,
      Vec3f.norm, h4, h16, h36]
  refine ⟨⟨Material.default, ⟨0, 0, -3⟩, 5⟩, ⟨0, 0, 0⟩, ⟨0, 0, -2⟩, 0, by norm_num, ?_, ?_, ?_⟩
  · norm_num [Vec3f.norm, h4]
  · rw [hres]
  · rw [hres]
    norm_num [Vec3f.sub_def, Vec3f.add_def, Vec3f.scale, Vec3f.norm, h289]

theorem Vec3f.dot_sub_pos (p c : Vec3f ℝ) (h : p ≠ c) : 0 < (p - c).dot (p - c) := by
  rcases lt_or_eq_of_le (Vec3f.dot_self_nonneg (p - c)) with h1 | h1
  · exact h1
  · exfalso
    apply h
    simp only [Vec3f.dot, Vec3f.sub_def] at h1
    have hx2 := mul_self_nonneg (p.x - c.x)
    have hy2 := mul_self_nonneg (p.y - c.y)
    have hz2 := mul_self_nonneg (p.z - c.z)
    have hx : p.x - c.x = 0 := mul_self_eq_zero.mp (by linarith)
    have hy : p.y - c.y = 0 := mul_self_eq_zero.mp (by linarith)
    have hz : p.z - c.z = 0 := mul_self_eq_zero.mp (by linarith)
    cases p
    cases c
    simp only [Vec3f.mk.injEq]
    simp only at hx hy hz
    exact ⟨by linarith, by linarith, by linarith⟩

/-- C19: for every point p different from the base centre c, the vector n
that `Cylinder::normal` returns has
|n|² = ((p.x − c.x)² + (p.z − c.z)²) / |p − c|², so its length is at most 1
and equals 1 exactly when p.y = c.y; for a point of the lateral surface at
height k = p.y − c.y above the base its length is r / √(r² + k²). -/
theorem Cylinder.normal_length (cy : Cylinder ℝ) (p : Vec3f ℝ) (hp : p ≠ cy.centar) :
    (cy.normal Real.sqrt p).dot (cy.normal Real.sqrt p)
        = ((p.x - cy.centar.x) ^ 2 + (p.z - cy.centar.z) ^ 2)
          / (p - cy.centar).dot (p - cy.centar) ∧
      (cy.normal Real.sqrt p).norm Real.sqrt ≤ 1 ∧
      ((cy.normal Real.sqrt p).norm Real.sqrt = 1 ↔ p.y = cy.centar.y) ∧
      (0 < cy.r → (p.x - cy.centar.x) ^ 2 + (p.z - cy.centar.z) ^ 2 = cy.r ^ 2 →
        (cy.normal Real.sqrt p).norm Real.sqrt
          = cy.r / Real.sqrt (cy.r ^ 2 + (p.y - cy.centar.y) ^ 2)) := by
  have hS := Vec3f.dot_sub_pos p cy.centar hp
  have hN : (p - cy.centar).norm Real.sqrt * (p - cy.centar).norm Real.sqrt
      = (p - cy.centar).dot (p - cy.centar) := by
    rw [Vec3f.norm_eq]
    exact Real.mul_self_sqrt hS.le
  have hNpos : 0 < (p - cy.centar).norm Real.sqrt := by
    rw [Vec3f.norm_eq]
    exact Real.sqrt_pos.mpr hS
  have hdot : (cy.normal Real.sqrt p).dot (cy.normal Real.sqrt p)
      = ((p.x - cy.centar.x) ^ 2 + (p.z - cy.centar.z) ^ 2)
        / (p - cy.centar).dot (p - cy.centar) := by
    rw [← hN]
    unfold Cylinder.normal Vec3f.normalize
    generalize (p - cy.centar).norm Real.sqrt = n at hNpos
    have hne : n ≠ 0 := hNpos.ne.symm
    simp only [Vec3f.scale, Vec3f.dot, Vec3f.sub_def]
    field_simp
    ring
  have hxz : 0 ≤ (p.x - cy.centar.x) ^ 2 + (p.z - cy.centar.z) ^ 2 := by positivity
  have hSe : (p - cy.centar).dot (p - cy.centar)
      = (p.x - cy.centar.x) ^ 2 + (p.z - cy.centar.z) ^ 2 + (p.y - cy.centar.y) ^ 2 := by
    simp only [Vec3f.dot, Vec3f.sub_def]
    ring
  have hle : (cy.normal Real.sqrt p).dot (cy.normal Real.sqrt p) ≤ 1 := by
    rw [hdot, div_le_one hS, hSe]
    nlinarith [sq_nonneg (p.y - cy.centar.y)]
  refine ⟨hdot, ?_, ?_, ?_⟩
  · rw [Vec3f.norm_eq]
    exact Real.sqrt_le_one.mpr hle
  · rw [Vec3f.norm_eq_iff _ _ (by norm_num), hdot, div_eq_iff hS.ne.symm, hSe]
    constructor
    · intro h
      have : (p.y - cy.centar.y) ^ 2 = 0 := by linarith
      have := pow_eq_zero_iff (two_ne_zero) |>.mp this
      linarith
    · intro h
      rw [h]
      ring
  · intro hr hlat
    rw [Vec3f.norm_eq, hdot, hSe, hlat, Real.sqrt_div (sq_nonneg _), Real.sqrt_sq hr.le]

/-- The point (1, 1, 0) beside the cylinder of base centre (0, 0, 0): the
normal there is not longer than 1. -/
theorem Cylinder.normal_length_witness :
    ((⟨Material.default, ⟨0, 0, 0⟩, 1, 2⟩ : Cylinder ℝ).normal Real.sqrt ⟨1, 1, 0⟩).norm
      Real.sqrt ≤ 1 :=
  (Cylinder.normal_length ⟨Material.default, ⟨0, 0, 0⟩, 1, 2⟩ ⟨1, 1, 0⟩
    (by
      intro h
      have := congrArg Vec3f.x h
      norm_num at this)).2.1

end Raytracer
